import Mathlib

/-!
# DeciderCreep (modules/planning/toolkits/deciders/decider_creep.cc)

A shallow embedding of Apollo's creep decider and proofs about it.

Conventions of the embedding.

* The arithmetic of the source on `double` is a parameter: the definitions are
  written over a type `D` with the operations the source uses (`+`, binary and
  unary `-`, `<`, the literals `0.5` and `0.0`), the class `DoubleArith`.
  Two instances are given.  `Double` is IEEE 754 binary64: every sum and
  difference is rounded to the nearest double, ties to even, with overflow to
  the infinities, and with NaN; the two zeros are one value and so are all
  NaNs.  `ℚ` is exact arithmetic, without rounding.
* A pointer that the source tests with `CHECK_NOTNULL` is an `Option`; the
  aborting check is the result `none`.
* The collaborators of the decider (frame, reference line, path decision) are
  not defined in `decider_creep.cc`.  Their data is kept in records with the
  accessors' names, and their methods are the fields of `Host`, so every
  theorem holds for every implementation of them.
* Calls into the host are recorded, in program order, in a list of `HostCall`.
-/

namespace apollo
namespace planning

/-! ## Arithmetic on `double` -/

/-- The operations of the source on `double` values: `+`, `-`, unary `-`, `<`,
and the two literals `0.5` and `0.0`. -/
class DoubleArith (D : Type) extends Add D, Sub D, Neg D, LT D where
  half : D
  zero : D
  decidableLT : DecidableRel (fun a b : D => a < b)

instance (priority := low) DoubleArith.instDecidableLT {D : Type} [DoubleArith D]
    (a b : D) : Decidable (a < b) :=
  DoubleArith.decidableLT a b

/-- Exact arithmetic: the operations of `ℚ`, no rounding. -/
instance DoubleArith.instRat : DoubleArith ℚ where
  half := 1 / 2
  zero := 0
  decidableLT := inferInstance

/-- The number of binary digits of `n`, by recursion on `fuel`; `fuel = n` is
enough. -/
def Double.bitLen : ℕ → ℕ → ℕ
  | 0, _ => 0
  | fuel + 1, n => if n = 0 then 0 else Double.bitLen fuel (n / 2) + 1

/-- For `x ≠ 0`, the integer `e` with `2 ^ e ≤ |x| < 2 ^ (e + 1)`: the
difference of the bit lengths of numerator and denominator, or one less. -/
def Double.ilog2 (x : ℚ) : ℤ :=
  let e : ℤ := (Double.bitLen x.num.natAbs x.num.natAbs : ℤ) -
    (Double.bitLen x.den x.den : ℤ)
  if (2 : ℚ) ^ e ≤ |x| then e else e - 1

/-- The exponent of the unit in the last place of the binary64 format at `x`:
53 significant bits, and never below the subnormal exponent `-1074`. -/
def Double.ulpExp (x : ℚ) : ℤ := max (Double.ilog2 x - 52) (-1074)

/-- The integer nearest to `y`, a tie going to the even one. -/
def Double.roundEven (y : ℚ) : ℤ :=
  if y - ⌊y⌋ < 1 / 2 then ⌊y⌋
  else if 1 / 2 < y - ⌊y⌋ then ⌊y⌋ + 1
  else if ⌊y⌋ % 2 = 0 then ⌊y⌋ else ⌊y⌋ + 1

/-- The value `x` rounded to 53 significant bits, to nearest, ties to even,
before the test for overflow. -/
def Double.roundQ (x : ℚ) : ℚ :=
  Double.roundEven (x / 2 ^ Double.ulpExp x) * 2 ^ Double.ulpExp x

/-- An IEEE 754 binary64 value: NaN, an infinity, or a finite value.  The
finite values are the rationals that rounding produces, below `2 ^ 1024` in
absolute value. -/
inductive Double where
  | nan
  | inf (negative : Bool)
  | fin (value : ℚ) (isFinite : ∃ x, Double.roundQ x = value ∧ |value| < 2 ^ 1024)
  deriving DecidableEq

instance : Repr Double where
  reprPrec d _ :=
    match d with
    | Double.nan => "nan"
    | Double.inf true => "-inf"
    | Double.inf false => "+inf"
    | Double.fin value _ => repr value

/-- The double nearest to the rational `x` (round to nearest, ties to even),
an infinity on overflow.  This is also the value of a decimal literal. -/
def Double.round (x : ℚ) : Double :=
  if h : |Double.roundQ x| < 2 ^ 1024 then Double.fin (Double.roundQ x) ⟨x, rfl, h⟩
  else Double.inf (decide (x < 0))

/-- The sum `a + b` in binary64. -/
def Double.add : Double → Double → Double
  | Double.nan, _ => Double.nan
  | _, Double.nan => Double.nan
  | Double.inf a, Double.inf b => if a = b then Double.inf a else Double.nan
  | Double.inf a, Double.fin _ _ => Double.inf a
  | Double.fin _ _, Double.inf b => Double.inf b
  | Double.fin x _, Double.fin y _ => Double.round (x + y)

/-- The difference `a - b` in binary64. -/
def Double.sub : Double → Double → Double
  | Double.nan, _ => Double.nan
  | _, Double.nan => Double.nan
  | Double.inf a, Double.inf b => if a = b then Double.nan else Double.inf a
  | Double.inf a, Double.fin _ _ => Double.inf a
  | Double.fin _ _, Double.inf b => Double.inf (!b)
  | Double.fin x _, Double.fin y _ => Double.round (x - y)

/-- The negation `-a` in binary64. -/
def Double.neg : Double → Double
  | Double.nan => Double.nan
  | Double.inf a => Double.inf (!a)
  | Double.fin x _ => Double.round (-x)

/-- The comparison `a < b` in binary64: false when an operand is NaN. -/
def Double.lt : Double → Double → Bool
  | Double.nan, _ => false
  | _, Double.nan => false
  | Double.inf a, Double.inf b => a && !b
  | Double.inf a, Double.fin _ _ => a
  | Double.fin _ _, Double.inf b => !b
  | Double.fin x _, Double.fin y _ => decide (x < y)

/-- The comparison `a <= b` in binary64: false when an operand is NaN. -/
def Double.le : Double → Double → Bool
  | Double.nan, _ => false
  | _, Double.nan => false
  | Double.inf a, Double.inf b => a || !b
  | Double.inf a, Double.fin _ _ => a
  | Double.fin _ _, Double.inf b => !b
  | Double.fin x _, Double.fin y _ => decide (x ≤ y)

/-- Whether a double is finite (neither NaN nor an infinity). -/
def Double.isFinite : Double → Bool
  | Double.fin _ _ => true
  | _ => false

instance Double.instAdd : Add Double := ⟨Double.add⟩
instance Double.instSub : Sub Double := ⟨Double.sub⟩
instance Double.instNeg : Neg Double := ⟨Double.neg⟩
instance Double.instLT : LT Double := ⟨fun a b => Double.lt a b = true⟩
instance Double.instLE : LE Double := ⟨fun a b => Double.le a b = true⟩

instance Double.instDecidableLT (a b : Double) : Decidable (a < b) :=
  inferInstanceAs (Decidable (Double.lt a b = true))

instance Double.instDecidableLE (a b : Double) : Decidable (a ≤ b) :=
  inferInstanceAs (Decidable (Double.le a b = true))

/-- IEEE 754 binary64 arithmetic; the literals are `0.5` and `0.0`. -/
instance DoubleArith.instDouble : DoubleArith Double where
  half := Double.round (1 / 2)
  zero := Double.round 0
  decidableLT := fun a b => inferInstanceAs (Decidable (Double.lt a b = true))

/-! ## Data model -/

/-- Modelled from the spec: the creep block of the task configuration
(`config_.decider_creep_config()`), whose proto declaration is missing. -/
structure DeciderCreepConfig (D : Type) where
  stop_distance : D
  max_valid_stop_distance : D
  min_boundary_t : D
  deriving DecidableEq, Repr

/-- Modelled from the spec: an obstacle of the host, as far as the decider
reads it (`Id()`, `IsVirtual()`, `IsStatic()`); the class is missing. -/
structure Obstacle where
  Id : String
  IsVirtual : Bool
  IsStatic : Bool
  deriving DecidableEq, Repr

/-- Modelled from the spec: the ST boundary of a path obstacle; only `min_t()`
is read by the decider. -/
structure StBoundary (D : Type) where
  min_t : D
  deriving DecidableEq, Repr

/-- Modelled from the spec: the reason code of a stop decision
(`StopReasonCode`), whose proto declaration is missing. -/
inductive StopReasonCode where
  | STOP_REASON_HEAD_VEHICLE
  | STOP_REASON_DESTINATION
  | STOP_REASON_OBSTACLE
  | STOP_REASON_STOP_SIGN
  | STOP_REASON_CREEPER
  deriving DecidableEq, Repr

/-- Modelled from the spec: the 3-D stop point (`PointENU`). -/
structure PointENU (D : Type) where
  x : D
  y : D
  z : D
  deriving DecidableEq, Repr

/-- Modelled from the spec: the stop constraint (`ObjectStop`) with the four
fields that `BuildStopDecision` sets. -/
structure ObjectStop (D : Type) where
  reason_code : StopReasonCode
  distance_s : D
  stop_heading : D
  stop_point : PointENU D
  deriving DecidableEq, Repr

/-- Modelled from the spec: the tagged decision object (`ObjectDecisionType`);
`mutable_stop()` selects the `stop` alternative. -/
inductive ObjectDecisionType (D : Type) where
  | not_set
  | ignore
  | stop (s : ObjectStop D)
  deriving DecidableEq, Repr

/-- Modelled from the spec: a tracked obstacle on the reference line
(`PathObstacle`): the obstacle, its ST boundary on the reference line, and the
longitudinal decisions stored on it with their decider tags. -/
structure PathObstacle (D : Type) where
  obstacle : Obstacle
  reference_line_st_boundary : StBoundary D
  decisions : List (String × ObjectDecisionType D)
  deriving DecidableEq, Repr

/-- The accessor `PathObstacle::Id()`. -/
def PathObstacle.Id {D : Type} (p : PathObstacle D) : String := p.obstacle.Id

/-- Modelled from the spec: the obstacle and decision set of a reference line
(`PathDecision`); `path_obstacles().Items()` is the list, in iteration order. -/
structure PathDecision (D : Type) where
  path_obstacles : List (PathObstacle D)
  deriving DecidableEq, Repr

/-- Modelled from the spec: the arc-length bounding box of the vehicle
(`SLBoundary`). -/
structure SLBoundary (D : Type) where
  start_s : D
  end_s : D
  deriving DecidableEq, Repr

/-- Modelled from the spec: a point of the reference line (`ReferencePoint`). -/
structure ReferencePoint (D : Type) where
  x : D
  y : D
  heading : D
  deriving DecidableEq, Repr

/-- Modelled from the spec: a Cartesian point (`Vec2d`). -/
structure Vec2d (D : Type) where
  x : D
  y : D
  deriving DecidableEq, Repr

/-- Modelled from the spec: an arc-length coordinate pair (`SLPoint`). -/
structure SLPoint (D : Type) where
  s : D
  l : D
  deriving DecidableEq, Repr

/-- A default-constructed `common::SLPoint` (`common::SLPoint adc_center_sl;`). -/
def SLPoint.init {D : Type} [DoubleArith D] : SLPoint D :=
  ⟨DoubleArith.zero, DoubleArith.zero⟩

/-- Modelled from the spec: the reference line, seen through the two methods
the decider calls.  `XYToSL xy sl` takes the value the out-parameter holds
before the call and gives the returned flag and the value it holds after. -/
structure ReferenceLine (D : Type) where
  GetReferencePoint : D → ReferencePoint D
  XYToSL : Vec2d D → SLPoint D → Bool × SLPoint D

/-- Modelled from the spec: the state of one reference line
(`ReferenceLineInfo`). -/
structure ReferenceLineInfo (D : Type) where
  AdcSlBoundary : SLBoundary D
  reference_line : ReferenceLine D
  path_decision : PathDecision D

/-- Modelled from the spec: the vehicle pose (`VehicleState`). -/
structure VehicleState (D : Type) where
  x : D
  y : D
  deriving DecidableEq, Repr

/-- Modelled from the spec: the planning frame: the vehicle state and the
obstacles the frame owns. -/
structure Frame (D : Type) where
  vehicle_state : VehicleState D
  obstacles : List Obstacle
  deriving DecidableEq, Repr

/-! ## CheckCreepDone -/

/-- The source's `FindCreepDistance`: the constant `0.5`. -/
def FindCreepDistance {D : Type} [DoubleArith D] (_frame : Frame D)
    (_reference_line_info : ReferenceLineInfo D) : D :=
  DoubleArith.half

/-- The `for` loop of `CheckCreepDone` (lines 118-129): the value of
`all_far_away` when the loop is left.  `continue` goes on with the rest of the
items, `break` leaves with `false`. -/
def CheckCreepDone.scan {D : Type} [DoubleArith D] (min_boundary_t : D) :
    List (PathObstacle D) → Bool
  | [] => true
  | path_obstacle :: rest =>
    if path_obstacle.obstacle.IsVirtual || !path_obstacle.obstacle.IsStatic then
      CheckCreepDone.scan min_boundary_t rest
    else if path_obstacle.reference_line_st_boundary.min_t < min_boundary_t then
      false
    else
      CheckCreepDone.scan min_boundary_t rest

/-- The source's `DeciderCreep::CheckCreepDone`. -/
def CheckCreepDone {D : Type} [DoubleArith D] (creep_config : DeciderCreepConfig D)
    (frame : Frame D) (reference_line_info : ReferenceLineInfo D) (stop_sign_end_s : D) :
    Bool :=
  let creep_stop_s := stop_sign_end_s + FindCreepDistance frame reference_line_info
  let distance := creep_stop_s - reference_line_info.AdcSlBoundary.end_s
  if distance < creep_config.max_valid_stop_distance then
    CheckCreepDone.scan creep_config.min_boundary_t
      reference_line_info.path_decision.path_obstacles
  else
    false

/-! ## The host interface and BuildStopDecision -/

/-- Modelled from the spec: the methods of the host framework that the decider
calls and whose code is not in `decider_creep.cc`, and the macro
`CREEP_VO_ID_PREFIX`.  A method that takes a non-const pointer returns the
state it leaves behind; a method returning a pointer returns an `Option`
(`none` is the null pointer). -/
structure Host (D : Type) where
  CREEP_VO_ID_PREFIX : String
  CreateStopObstacle :
    Frame D → ReferenceLineInfo D → String → D →
      Frame D × ReferenceLineInfo D × Option Obstacle
  AddObstacle :
    ReferenceLineInfo D → Obstacle → ReferenceLineInfo D × Option (PathObstacle D)
  AddLongitudinalDecision :
    PathDecision D → String → String → ObjectDecisionType D → PathDecision D

/-- A call of the decider into the host, with the arguments it passes. -/
inductive HostCall (D : Type) where
  | CreateStopObstacle (obstacle_id : String) (obstacle_s : D)
  | AddObstacle (obstacle : Obstacle)
  | GetReferencePoint (s : D)
  | AddLongitudinalDecision (tag : String) (object_id : String)
      (decision : ObjectDecisionType D)
  deriving DecidableEq, Repr

/-- What a run of `BuildStopDecision` leaves: the returned flag, the frame and
the reference line state after the run, and the host calls made, in order. -/
structure BuildResult (D : Type) where
  ok : Bool
  frame : Frame D
  reference_line_info : ReferenceLineInfo D
  calls : List (HostCall D)

/-- The source's `DeciderCreep::BuildStopDecision`.  `none` is the abort of a
failed `CHECK_NOTNULL`. -/
def BuildStopDecision {D : Type} [DoubleArith D] (host : Host D)
    (config : DeciderCreepConfig D) :
    Option (Frame D) → Option (ReferenceLineInfo D) → Option (BuildResult D)
  | none, _ => none
  | some _, none => none
  | some frame, some reference_line_info =>
    let adc_front_edge_s := reference_line_info.AdcSlBoundary.end_s
    let creep_distance := FindCreepDistance frame reference_line_info
    let creep_stop_s := adc_front_edge_s + creep_distance
    let virtual_obstacle_id := host.CREEP_VO_ID_PREFIX ++ "test"
    let call1 := HostCall.CreateStopObstacle virtual_obstacle_id creep_stop_s
    match host.CreateStopObstacle frame reference_line_info virtual_obstacle_id
        creep_stop_s with
    | (frame1, info1, none) => some ⟨false, frame1, info1, [call1]⟩
    | (frame1, info1, some obstacle) =>
      let call2 := HostCall.AddObstacle obstacle
      match host.AddObstacle info1 obstacle with
      | (info2, none) => some ⟨false, frame1, info2, [call1, call2]⟩
      | (info2, some stop_wall) =>
        let stop_distance := config.stop_distance
        let stop_s := creep_stop_s - stop_distance
        let reference_line := info2.reference_line
        let stop_point := reference_line.GetReferencePoint stop_s
        let stop_heading := (reference_line.GetReferencePoint stop_s).heading
        let stop := ObjectDecisionType.stop
          { reason_code := StopReasonCode.STOP_REASON_CREEPER
            distance_s := -stop_distance
            stop_heading := stop_heading
            stop_point := ⟨stop_point.x, stop_point.y, DoubleArith.zero⟩ }
        let path_decision :=
          host.AddLongitudinalDecision info2.path_decision "Creeper" stop_wall.Id stop
        some ⟨true, frame1, { info2 with path_decision := path_decision },
          [call1, call2, HostCall.GetReferencePoint stop_s,
            HostCall.GetReferencePoint stop_s,
            HostCall.AddLongitudinalDecision "Creeper" stop_wall.Id stop]⟩

/-! ## Process -/

/-- Modelled from the spec: `apollo::common::ErrorCode`, as far as named here. -/
inductive ErrorCode where
  | OK
  | PLANNING_ERROR
  deriving DecidableEq, Repr

/-- Modelled from the spec: `apollo::common::Status`. -/
structure Status where
  code : ErrorCode
  msg : String
  deriving DecidableEq, Repr

/-- The success status `Status::OK()`. -/
def Status.OK : Status := ⟨ErrorCode.OK, ""⟩

/-- What a run of `Process` leaves: the returned status, and the state and
host calls of the run. -/
structure ProcessResult (D : Type) where
  status : Status
  frame : Frame D
  reference_line_info : ReferenceLineInfo D
  calls : List (HostCall D)

/-- The source's `DeciderCreep::Process`: the two `CHECK_NOTNULL`, the call of
`BuildStopDecision` whose returned flag is dropped, and `Status::OK()`. -/
def Process {D : Type} [DoubleArith D] (host : Host D) (config : DeciderCreepConfig D) :
    Option (Frame D) → Option (ReferenceLineInfo D) → Option (ProcessResult D)
  | none, _ => none
  | some _, none => none
  | some frame, some reference_line_info =>
    match BuildStopDecision host config (some frame) (some reference_line_info) with
    | none => none
    | some built =>
      some ⟨Status.OK, built.frame, built.reference_line_info, built.calls⟩

/-! ## SetProceedWithCautionSpeedParam -/

/-- Modelled from the spec: the tag of the proceed-with-caution speed parameter
(`ProceedWithCautionSpeedParam::Type`); the source names `FIXED_DISTANCE`, and
`OTHER` stands for the remaining tags of the variant. -/
inductive ProceedWithCautionSpeedType where
  | FIXED_DISTANCE
  | OTHER
  deriving DecidableEq, Repr

/-- Modelled from the spec: the proceed-with-caution speed parameter of the
scenario context, with the two members the source writes. -/
structure ProceedWithCautionSpeedParam (D : Type) where
  type : ProceedWithCautionSpeedType
  distance : D
  deriving DecidableEq, Repr

/-- Modelled from the spec: the process-wide scenario state
(`PlanningContext::GetScenarioInfo()`), passed explicitly. -/
structure ScenarioInfo (D : Type) where
  proceed_with_caution_speed : ProceedWithCautionSpeedParam D
  deriving DecidableEq, Repr

/-- The source's `DeciderCreep::SetProceedWithCautionSpeedParam`, as a
transformer of the scenario state. -/
def SetProceedWithCautionSpeedParam {D : Type} [DoubleArith D] (frame : Frame D)
    (reference_line_info : ReferenceLineInfo D) (scenario_info : ScenarioInfo D) :
    ScenarioInfo D :=
  let adc_center_sl :=
    (reference_line_info.reference_line.XYToSL
      ⟨frame.vehicle_state.x, frame.vehicle_state.y⟩ SLPoint.init).2
  let creep_distance := adc_center_sl.s + FindCreepDistance frame reference_line_info
  let info1 : ScenarioInfo D :=
    { scenario_info with
      proceed_with_caution_speed :=
        { scenario_info.proceed_with_caution_speed with
          type := ProceedWithCautionSpeedType.FIXED_DISTANCE } }
  { info1 with
    proceed_with_caution_speed :=
      { info1.proceed_with_caution_speed with distance := creep_distance } }

/-! ## Sample inputs in exact arithmetic -/

/-- A straight reference line along the x axis: the point at arc-length `s` is
`(s, 0)` with heading `0`, and the projection of `(x, y)` is `s = x`, `l = y`. -/
def sampleReferenceLine : ReferenceLine ℚ where
  GetReferencePoint := fun s => ⟨s, 0, 0⟩
  XYToSL := fun xy _ => (true, ⟨xy.x, xy.y⟩)

/-- A reference line state with the vehicle's front edge at `end_s` and the
given tracked obstacles. -/
def sampleInfo (end_s : ℚ) (items : List (PathObstacle ℚ)) : ReferenceLineInfo ℚ where
  AdcSlBoundary := ⟨end_s - 4, end_s⟩
  reference_line := sampleReferenceLine
  path_decision := ⟨items⟩

/-- A frame with the vehicle at `(x, y)` and no obstacle. -/
def sampleFrame (x y : ℚ) : Frame ℚ := ⟨⟨x, y⟩, []⟩

/-- A tracked obstacle with the given flags and boundary time. -/
def sampleItem (id : String) (is_virtual is_static : Bool) (min_t : ℚ) : PathObstacle ℚ :=
  ⟨⟨id, is_virtual, is_static⟩, ⟨min_t⟩, []⟩

/-- A host on which creation and registration succeed: the stop obstacle is a
static virtual obstacle added to the frame, registration appends a path
obstacle for it, and a longitudinal decision is stored on the path obstacle of
the given id. -/
def sampleHost : Host ℚ where
  CREEP_VO_ID_PREFIX := "CREEP_"
  CreateStopObstacle := fun frame info id _ =>
    ({ frame with obstacles := frame.obstacles ++ [⟨id, true, true⟩] }, info,
      some ⟨id, true, true⟩)
  AddObstacle := fun info obstacle =>
    ({ info with
        path_decision :=
          ⟨info.path_decision.path_obstacles ++ [⟨obstacle, ⟨0⟩, []⟩]⟩ },
      some ⟨obstacle, ⟨0⟩, []⟩)
  AddLongitudinalDecision := fun path_decision tag id decision =>
    ⟨path_decision.path_obstacles.map fun p =>
      if p.Id = id then { p with decisions := p.decisions ++ [(tag, decision)] } else p⟩

/-- A host that refuses to create the stop obstacle. -/
def refusingHost : Host ℚ :=
  { sampleHost with CreateStopObstacle := fun frame info _ _ => (frame, info, none) }

/-- A host that creates the stop obstacle as `sampleHost` does and refuses to
register it: `AddObstacle` returns the null pointer and leaves the reference
line state as it is. -/
def unregisteringHost : Host ℚ :=
  { sampleHost with AddObstacle := fun info _ => (info, none) }

/-- The result expected from `BuildStopDecision` on `sampleHost`, the
configuration with the given `stop_distance`, the frame `sampleFrame 6 0` and
the reference line state `sampleInfo 10 []` (front edge at `10.0`): the stop
wall is requested at `10.5` and the stop point resolved at
`10.5 - stop_distance`. -/
def sampleBuilt (stop_distance : ℚ) : BuildResult ℚ where
  ok := true
  frame := ⟨⟨6, 0⟩, [⟨"CREEP_test", true, true⟩]⟩
  reference_line_info :=
    { AdcSlBoundary := ⟨6, 10⟩
      reference_line := sampleReferenceLine
      path_decision :=
        ⟨[⟨⟨"CREEP_test", true, true⟩, ⟨0⟩,
          [("Creeper", ObjectDecisionType.stop
            ⟨StopReasonCode.STOP_REASON_CREEPER, -stop_distance, 0,
              ⟨21 / 2 - stop_distance, 0, 0⟩⟩)]⟩]⟩ }
  calls :=
    [HostCall.CreateStopObstacle "CREEP_test" (21 / 2),
      HostCall.AddObstacle ⟨"CREEP_test", true, true⟩,
      HostCall.GetReferencePoint (21 / 2 - stop_distance),
      HostCall.GetReferencePoint (21 / 2 - stop_distance),
      HostCall.AddLongitudinalDecision "Creeper" "CREEP_test"
        (ObjectDecisionType.stop
          ⟨StopReasonCode.STOP_REASON_CREEPER, -stop_distance, 0,
            ⟨21 / 2 - stop_distance, 0, 0⟩⟩)]

/-! ## Sample inputs in binary64

The rational arguments are read as decimal literals: each is rounded to the
nearest double. -/

/-- The configuration with the doubles nearest to the three given values. -/
def sampleConfig64 (stop_distance max_valid_stop_distance min_boundary_t : ℚ) :
    DeciderCreepConfig Double :=
  ⟨Double.round stop_distance, Double.round max_valid_stop_distance,
    Double.round min_boundary_t⟩

/-- A straight reference line along the x axis, in doubles: the point at
arc-length `s` is `(s, 0.0)` with heading `0.0`, and the projection of `(x, y)`
is `s = x`, `l = y`. -/
def sampleReferenceLine64 : ReferenceLine Double where
  GetReferencePoint := fun s => ⟨s, Double.round 0, Double.round 0⟩
  XYToSL := fun xy _ => (true, ⟨xy.x, xy.y⟩)

/-- A reference line state with the vehicle's front edge at the double nearest
to `end_s` and the given tracked obstacles. -/
def sampleInfo64 (end_s : ℚ) (items : List (PathObstacle Double)) :
    ReferenceLineInfo Double where
  AdcSlBoundary := ⟨Double.round (end_s - 4), Double.round end_s⟩
  reference_line := sampleReferenceLine64
  path_decision := ⟨items⟩

/-- A frame with the vehicle at the doubles nearest to `(x, y)` and no
obstacle. -/
def sampleFrame64 (x y : ℚ) : Frame Double := ⟨⟨Double.round x, Double.round y⟩, []⟩

/-- A tracked obstacle with the given flags and the double nearest to `min_t`
as boundary time. -/
def sampleItem64 (id : String) (is_virtual is_static : Bool) (min_t : ℚ) :
    PathObstacle Double :=
  ⟨⟨id, is_virtual, is_static⟩, ⟨Double.round min_t⟩, []⟩

/-- The host `sampleHost`, in doubles. -/
def sampleHost64 : Host Double where
  CREEP_VO_ID_PREFIX := "CREEP_"
  CreateStopObstacle := fun frame info id _ =>
    ({ frame with obstacles := frame.obstacles ++ [⟨id, true, true⟩] }, info,
      some ⟨id, true, true⟩)
  AddObstacle := fun info obstacle =>
    ({ info with
        path_decision :=
          ⟨info.path_decision.path_obstacles ++ [⟨obstacle, ⟨Double.round 0⟩, []⟩]⟩ },
      some ⟨obstacle, ⟨Double.round 0⟩, []⟩)
  AddLongitudinalDecision := fun path_decision tag id decision =>
    ⟨path_decision.path_obstacles.map fun p =>
      if p.Id = id then { p with decisions := p.decisions ++ [(tag, decision)] } else p⟩

/-! ## Definitions used in the statements -/

/-- The reference line state `info` with its tracked obstacles replaced by
`items`. -/
def ReferenceLineInfo.withItems {D : Type} (info : ReferenceLineInfo D)
    (items : List (PathObstacle D)) : ReferenceLineInfo D :=
  { info with path_decision := { info.path_decision with path_obstacles := items } }

/-- The reference line state `info` with the vehicle's front edge
(`AdcSlBoundary().end_s()`) replaced by `end_s`. -/
def ReferenceLineInfo.withFrontEdge {D : Type} (info : ReferenceLineInfo D) (end_s : D) :
    ReferenceLineInfo D :=
  { info with AdcSlBoundary := { info.AdcSlBoundary with end_s := end_s } }

/-- The stop constraint that `BuildStopDecision` builds (lines 86-99) from the
reference line `reference_line`, the arc-length `creep_stop_s` of the stop
wall and the configured `stop_distance`. -/
def builtStop {D : Type} [DoubleArith D] (reference_line : ReferenceLine D)
    (creep_stop_s stop_distance : D) : ObjectDecisionType D :=
  ObjectDecisionType.stop
    { reason_code := StopReasonCode.STOP_REASON_CREEPER
      distance_s := -stop_distance
      stop_heading := (reference_line.GetReferencePoint (creep_stop_s - stop_distance)).heading
      stop_point :=
        ⟨(reference_line.GetReferencePoint (creep_stop_s - stop_distance)).x,
          (reference_line.GetReferencePoint (creep_stop_s - stop_distance)).y,
          DoubleArith.zero⟩ }

/-- Modelled from the spec: the map feature that triggers the maneuver
(`apollo::hdmap::PathOverlap`, named by the `using` declaration and by the
commented-out signature of `BuildStopDecision`), with its identifier. -/
structure PathOverlap where
  object_id : String
  deriving DecidableEq, Repr

/-- Whether a host call is a registration of a longitudinal decision. -/
def HostCall.isAddLongitudinalDecision {D : Type} : HostCall D → Bool
  | HostCall.AddLongitudinalDecision _ _ _ => true
  | _ => false

/-! ## Rounding to the nearest double -/

namespace Double
theorem bitLen_zero (fuel : ℕ) : bitLen fuel 0 = 0 := by
  cases fuel <;> simp [bitLen]

theorem bitLen_spec (fuel : ℕ) : ∀ n : ℕ, n ≤ fuel →
    n < 2 ^ bitLen fuel n ∧ (n ≠ 0 → 2 ^ (bitLen fuel n - 1) ≤ n) := by
  induction fuel with
  | zero =>
    intro n hn
    have h0 : n = 0 := by omega
    subst h0
    simp [bitLen]
  | succ fuel ih =>
    intro n hn
    by_cases h0 : n = 0
    · subst h0
      simp [bitLen]
    · have hhalf : n / 2 ≤ fuel := by omega
      obtain ⟨hlt, hge⟩ := ih (n / 2) hhalf
      simp only [bitLen, h0, if_false, Nat.add_sub_cancel]
      constructor
      · rw [pow_succ]
        omega
      · intro _
        by_cases hq : n / 2 = 0
        · rw [hq, bitLen_zero]
          simp
          omega
        · have hk := hge hq
          have hpos : bitLen fuel (n / 2) ≠ 0 := by
            intro hz
            rw [hz] at hlt
            simp at hlt
            exact hq hlt
          obtain ⟨k, hk'⟩ := Nat.exists_eq_succ_of_ne_zero hpos
          rw [hk'] at hk ⊢
          simp only [Nat.succ_sub_one] at hk
          rw [pow_succ]
          omega

theorem abs_eq_natAbs_div_den (x : ℚ) : |x| = (x.num.natAbs : ℚ) / (x.den : ℚ) := by
  have hden : (0 : ℚ) < x.den := by exact_mod_cast x.den_pos
  conv_lhs => rw [← Rat.num_div_den x]
  rw [abs_div, abs_of_pos hden]
  congr 1
  rw [Nat.cast_natAbs, Int.cast_abs]

theorem ilog2_spec (x : ℚ) (hx : x ≠ 0) :
    (2 : ℚ) ^ ilog2 x ≤ |x| ∧ |x| < (2 : ℚ) ^ (ilog2 x + 1) := by
  have ha0 : x.num.natAbs ≠ 0 := by
    simpa [Int.natAbs_eq_zero] using hx
  have hb0 : x.den ≠ 0 := x.den_nz
  obtain ⟨ha_lt, ha_ge⟩ := bitLen_spec x.num.natAbs x.num.natAbs le_rfl
  obtain ⟨hb_lt, hb_ge⟩ := bitLen_spec x.den x.den le_rfl
  have ha_ge := ha_ge ha0
  have hb_ge := hb_ge hb0
  set a := x.num.natAbs with ha
  set b := x.den with hb
  set la := bitLen a a with hla
  set lb := bitLen b b with hlb
  have hbpos : (0 : ℚ) < b := by exact_mod_cast Nat.pos_of_ne_zero hb0
  have habs : |x| = (a : ℚ) / b := abs_eq_natAbs_div_den x
  have hla1 : 1 ≤ la := by
    by_contra h
    have : la = 0 := by omega
    rw [this] at ha_lt
    omega
  have hlb1 : 1 ≤ lb := by
    by_contra h
    have : lb = 0 := by omega
    rw [this] at hb_lt
    omega
  have h2 : (2 : ℚ) ≠ 0 := by norm_num
  -- the four bounds in ℚ
  have qa_lt : (a : ℚ) < 2 ^ (la : ℤ) := by
    rw [zpow_natCast]; exact_mod_cast ha_lt
  have qa_ge : (2 : ℚ) ^ ((la : ℤ) - 1) ≤ a := by
    have : ((la : ℤ) - 1) = ((la - 1 : ℕ) : ℤ) := by omega
    rw [this, zpow_natCast]; exact_mod_cast ha_ge
  have qb_lt : (b : ℚ) < 2 ^ (lb : ℤ) := by
    rw [zpow_natCast]; exact_mod_cast hb_lt
  have qb_ge : (2 : ℚ) ^ ((lb : ℤ) - 1) ≤ b := by
    have : ((lb : ℤ) - 1) = ((lb - 1 : ℕ) : ℤ) := by omega
    rw [this, zpow_natCast]; exact_mod_cast hb_ge
  have upper : |x| < (2 : ℚ) ^ ((la : ℤ) - lb + 1) := by
    rw [habs, div_lt_iff₀ hbpos]
    calc (a : ℚ) < 2 ^ (la : ℤ) := qa_lt
      _ = 2 ^ ((la : ℤ) - lb + 1) * 2 ^ ((lb : ℤ) - 1) := by
          rw [← zpow_add₀ h2]; congr 1; ring
      _ ≤ 2 ^ ((la : ℤ) - lb + 1) * b :=
          mul_le_mul_of_nonneg_left qb_ge (by positivity)
  have lower : (2 : ℚ) ^ ((la : ℤ) - lb - 1) ≤ |x| := by
    rw [habs, le_div_iff₀ hbpos]
    calc (2 : ℚ) ^ ((la : ℤ) - lb - 1) * b
        ≤ 2 ^ ((la : ℤ) - lb - 1) * 2 ^ (lb : ℤ) :=
          mul_le_mul_of_nonneg_left qb_lt.le (by positivity)
      _ = 2 ^ ((la : ℤ) - 1) := by
          rw [← zpow_add₀ h2]; congr 1; ring
      _ ≤ a := qa_ge
  unfold ilog2
  simp only
  split
  · rename_i hle
    exact ⟨hle, upper⟩
  · rename_i hlt
    refine ⟨lower, ?_⟩
    have : (la : ℤ) - lb - 1 + 1 = (la : ℤ) - lb := by ring
    rw [this]
    exact not_le.mp hlt



theorem roundEven_of (y : ℚ) (f : ℤ) (h1 : (f : ℚ) ≤ y) (h2 : y < f + 1) :
    roundEven y =
      if y - f < 1 / 2 then f
      else if 1 / 2 < y - f then f + 1
      else if f % 2 = 0 then f else f + 1 := by
  have hf : ⌊y⌋ = f := Int.floor_eq_iff.mpr ⟨h1, h2⟩
  simp only [roundEven, hf]

theorem roundEven_intCast (n : ℤ) : roundEven (n : ℚ) = n := by
  rw [roundEven_of (n : ℚ) n le_rfl (by linarith)]
  norm_num

theorem roundEven_neg (y : ℚ) : roundEven (-y) = -roundEven y := by
  have h1 : ((⌊y⌋ : ℤ) : ℚ) ≤ y := Int.floor_le y
  have h2 : y < (⌊y⌋ : ℚ) + 1 := Int.lt_floor_add_one y
  rw [roundEven_of y ⌊y⌋ h1 h2]
  set f := ⌊y⌋ with hf
  by_cases hr : y = f
  · have : -y = ((-f : ℤ) : ℚ) := by rw [hr]; push_cast; ring
    rw [this, roundEven_intCast]
    have : y - f = 0 := by rw [hr]; ring
    rw [this]
    norm_num
  · have hlt : (f : ℚ) < y := lt_of_le_of_ne h1 (Ne.symm hr)
    have h3 : (((-f - 1 : ℤ)) : ℚ) ≤ -y := by push_cast; linarith
    have h4 : -y < ((-f - 1 : ℤ) : ℚ) + 1 := by push_cast; linarith
    rw [roundEven_of (-y) (-f - 1) h3 h4]
    push_cast
    split_ifs <;> first | omega | (exfalso; linarith)

theorem roundEven_mono {y1 y2 : ℚ} (h : y1 ≤ y2) : roundEven y1 ≤ roundEven y2 := by
  have a1 : ((⌊y1⌋ : ℤ) : ℚ) ≤ y1 := Int.floor_le y1
  have a2 : y1 < (⌊y1⌋ : ℚ) + 1 := Int.lt_floor_add_one y1
  have b1 : ((⌊y2⌋ : ℤ) : ℚ) ≤ y2 := Int.floor_le y2
  have b2 : y2 < (⌊y2⌋ : ℚ) + 1 := Int.lt_floor_add_one y2
  have hfl : ⌊y1⌋ ≤ ⌊y2⌋ := Int.floor_mono h
  rw [roundEven_of y1 ⌊y1⌋ a1 a2, roundEven_of y2 ⌊y2⌋ b1 b2]
  rcases hfl.lt_or_eq with hlt | heq
  · split_ifs <;> omega
  · rw [heq] at a1 a2 ⊢
    split_ifs <;> first | omega | (exfalso; linarith)

theorem le_roundEven {n : ℤ} {y : ℚ} (h : (n : ℚ) ≤ y) : n ≤ roundEven y := by
  have := roundEven_mono h
  rwa [roundEven_intCast] at this

theorem roundEven_le {n : ℤ} {y : ℚ} (h : y ≤ (n : ℚ)) : roundEven y ≤ n := by
  have := roundEven_mono h
  rwa [roundEven_intCast] at this



theorem two_zpow_pos (e : ℤ) : (0 : ℚ) < 2 ^ e := by positivity

theorem two_zpow_le {m n : ℤ} (h : m ≤ n) : (2 : ℚ) ^ m ≤ 2 ^ n :=
  zpow_le_zpow_right₀ (by norm_num) h

theorem two_zpow_lt_iff {m n : ℤ} : (2 : ℚ) ^ m < 2 ^ n ↔ m < n :=
  zpow_lt_zpow_iff_right₀ (by norm_num)

theorem ilog2_neg (x : ℚ) : ilog2 (-x) = ilog2 x := by
  simp [ilog2]

theorem ulpExp_neg (x : ℚ) : ulpExp (-x) = ulpExp x := by
  simp [ulpExp, ilog2_neg]

theorem roundQ_neg (x : ℚ) : roundQ (-x) = -roundQ x := by
  simp only [roundQ, ulpExp_neg, neg_div, roundEven_neg]
  push_cast
  ring

theorem roundQ_zero : roundQ 0 = 0 := by
  have h : roundEven ((0 : ℤ) : ℚ) = 0 := roundEven_intCast 0
  simp only [Int.cast_zero] at h
  simp [roundQ, h]

theorem ilog2_mono {x y : ℚ} (hx : x ≠ 0) (hxy : |x| ≤ |y|) : ilog2 x ≤ ilog2 y := by
  have hy : y ≠ 0 := by
    intro h
    rw [h, abs_zero] at hxy
    exact hx (abs_eq_zero.mp (le_antisymm hxy (abs_nonneg x)))
  obtain ⟨hx1, _⟩ := ilog2_spec x hx
  obtain ⟨_, hy2⟩ := ilog2_spec y hy
  have : (2 : ℚ) ^ ilog2 x < 2 ^ (ilog2 y + 1) := lt_of_le_of_lt (le_trans hx1 hxy) hy2
  have := two_zpow_lt_iff.mp this
  omega

theorem ulpExp_mono {x y : ℚ} (hx : x ≠ 0) (hxy : |x| ≤ |y|) : ulpExp x ≤ ulpExp y := by
  have := ilog2_mono hx hxy
  simp only [ulpExp]
  omega

theorem ulpExp_ge (x : ℚ) : -1074 ≤ ulpExp x := by
  simp only [ulpExp]
  omega

theorem abs_lt_ulpExp (x : ℚ) (hx : x ≠ 0) : |x| < 2 ^ (ulpExp x + 53) := by
  obtain ⟨_, h2⟩ := ilog2_spec x hx
  refine lt_of_lt_of_le h2 (two_zpow_le ?_)
  simp only [ulpExp]
  omega

theorem ulpExp_le_abs (x : ℚ) (hx : x ≠ 0) (hn : ulpExp x ≠ -1074) :
    (2 : ℚ) ^ (ulpExp x + 52) ≤ |x| := by
  obtain ⟨h1, _⟩ := ilog2_spec x hx
  refine le_trans (two_zpow_le ?_) h1
  simp only [ulpExp] at hn ⊢
  omega

/-- The quotient `x / 2 ^ ulpExp x` is below `2 ^ 53` in absolute value. -/
theorem abs_div_ulp_lt (x : ℚ) : |x / 2 ^ ulpExp x| < 2 ^ 53 := by
  by_cases hx : x = 0
  · subst hx
    simp
  · rw [abs_div, abs_of_pos (two_zpow_pos _), div_lt_iff₀ (two_zpow_pos _)]
    have h := abs_lt_ulpExp x hx
    have : (2 : ℚ) ^ (ulpExp x + 53) = 2 ^ 53 * 2 ^ ulpExp x := by
      rw [zpow_add₀ (by norm_num : (2 : ℚ) ≠ 0)]
      norm_num
      ring
    rwa [this] at h

theorem roundQ_nonneg {x : ℚ} (hx : 0 ≤ x) : 0 ≤ roundQ x := by
  have h : (0 : ℤ) ≤ roundEven (x / 2 ^ ulpExp x) :=
    le_roundEven (by
      push_cast
      exact div_nonneg hx (two_zpow_pos _).le)
  have : (0 : ℚ) ≤ (roundEven (x / 2 ^ ulpExp x) : ℚ) := by exact_mod_cast h
  exact mul_nonneg this (two_zpow_pos _).le

theorem roundQ_mono_pos {x y : ℚ} (hx : 0 < x) (hxy : x ≤ y) : roundQ x ≤ roundQ y := by
  have hy : 0 < y := lt_of_lt_of_le hx hxy
  have hexp : ulpExp x ≤ ulpExp y :=
    ulpExp_mono hx.ne' (by rwa [abs_of_pos hx, abs_of_pos hy])
  rcases hexp.lt_or_eq with hlt | heq
  · -- different binades: `roundQ x ≤ 2 ^ (ulpExp x + 53) ≤ 2 ^ (ulpExp y + 52) ≤ roundQ y`
    have hup : roundQ x ≤ 2 ^ (ulpExp x + 53) := by
      have h1 : roundEven (x / 2 ^ ulpExp x) ≤ ((2 : ℤ) ^ 53) :=
        roundEven_le (by
          push_cast
          have := abs_div_ulp_lt x
          exact (le_abs_self _).trans this.le)
      have h2 : (roundEven (x / 2 ^ ulpExp x) : ℚ) ≤ 2 ^ 53 := by exact_mod_cast h1
      calc roundQ x = roundEven (x / 2 ^ ulpExp x) * 2 ^ ulpExp x := rfl
        _ ≤ 2 ^ 53 * 2 ^ ulpExp x := mul_le_mul_of_nonneg_right h2 (two_zpow_pos _).le
        _ = 2 ^ (ulpExp x + 53) := by
            rw [zpow_add₀ (by norm_num : (2 : ℚ) ≠ 0)]
            norm_num
            ring
    have hne : ulpExp y ≠ -1074 := by
      have := ulpExp_ge x
      omega
    have hlow : (2 : ℚ) ^ (ulpExp y + 52) ≤ roundQ y := by
      have hq : (2 : ℚ) ^ (ulpExp y + 52) ≤ y := by
        have := ulpExp_le_abs y hy.ne' hne
        rwa [abs_of_pos hy] at this
      have h1 : ((2 : ℤ) ^ 52) ≤ roundEven (y / 2 ^ ulpExp y) :=
        le_roundEven (by
          push_cast
          rw [le_div_iff₀ (two_zpow_pos _)]
          calc (2 : ℚ) ^ 52 * 2 ^ ulpExp y = 2 ^ (ulpExp y + 52) := by
                rw [zpow_add₀ (by norm_num : (2 : ℚ) ≠ 0)]
                norm_num
                ring
            _ ≤ y := hq)
      have h2 : (2 : ℚ) ^ 52 ≤ (roundEven (y / 2 ^ ulpExp y) : ℚ) := by exact_mod_cast h1
      calc (2 : ℚ) ^ (ulpExp y + 52) = 2 ^ 52 * 2 ^ ulpExp y := by
            rw [zpow_add₀ (by norm_num : (2 : ℚ) ≠ 0)]
            norm_num
            ring
        _ ≤ roundEven (y / 2 ^ ulpExp y) * 2 ^ ulpExp y :=
            mul_le_mul_of_nonneg_right h2 (two_zpow_pos _).le
    exact hup.trans ((two_zpow_le (by omega)).trans hlow)
  · -- same binade: rounding to one grid is monotone
    have hdiv : x / 2 ^ ulpExp x ≤ y / 2 ^ ulpExp x :=
      div_le_div_of_nonneg_right hxy (two_zpow_pos _).le
    have h1 := roundEven_mono hdiv
    have h2 : (roundEven (x / 2 ^ ulpExp x) : ℚ) ≤ roundEven (y / 2 ^ ulpExp x) := by
      exact_mod_cast h1
    simp only [roundQ, ← heq]
    exact mul_le_mul_of_nonneg_right h2 (two_zpow_pos _).le

/-- Rounding to the nearest double is monotone. -/
theorem roundQ_mono {x y : ℚ} (hxy : x ≤ y) : roundQ x ≤ roundQ y := by
  rcases lt_trichotomy 0 x with hx | hx | hx
  · exact roundQ_mono_pos hx hxy
  · subst hx
    rw [roundQ_zero]
    exact roundQ_nonneg hxy
  · rcases lt_or_le y 0 with hy | hy
    · have h := roundQ_mono_pos (neg_pos.mpr hy) (neg_le_neg hxy)
      rw [roundQ_neg, roundQ_neg] at h
      linarith
    · have h1 : roundQ x ≤ 0 := by
        have := roundQ_nonneg (neg_nonneg.mpr hx.le)
        rw [roundQ_neg] at this
        linarith
      exact h1.trans (roundQ_nonneg hy)



/-- A multiple of a power of two at or above its own unit exponent is unchanged by
rounding. -/
theorem roundQ_fixed (x : ℚ) (n e : ℤ) (hx : x = n * 2 ^ e) (he : ulpExp x ≤ e) :
    roundQ x = x := by
  have h2 : (2 : ℚ) ≠ 0 := by norm_num
  obtain ⟨k, hk⟩ : ∃ k : ℕ, e - ulpExp x = k := ⟨(e - ulpExp x).toNat, by omega⟩
  have hdiv : x / 2 ^ ulpExp x = ((n * 2 ^ k : ℤ) : ℚ) := by
    push_cast
    rw [div_eq_iff (two_zpow_pos _).ne']
    conv_lhs => rw [hx]
    rw [mul_assoc, ← zpow_natCast, ← zpow_add₀ h2, ← hk]
    congr 2
    ring
  have hr : roundQ x = roundEven (x / 2 ^ ulpExp x) * 2 ^ ulpExp x := rfl
  rw [hr, hdiv, roundEven_intCast, ← hdiv]
  exact div_mul_cancel₀ x (two_zpow_pos _).ne'

theorem abs_roundEven_le (x : ℚ) : |roundEven (x / 2 ^ ulpExp x)| ≤ 2 ^ 53 := by
  have h := abs_div_ulp_lt x
  have hup : roundEven (x / 2 ^ ulpExp x) ≤ ((2 : ℤ) ^ 53) :=
    roundEven_le (by
      push_cast
      exact (le_abs_self _).trans h.le)
  have hlow : (-(2 : ℤ) ^ 53) ≤ roundEven (x / 2 ^ ulpExp x) :=
    le_roundEven (by
      push_cast
      have := neg_abs_le (x / 2 ^ ulpExp x)
      linarith)
  exact abs_le.mpr ⟨hlow, hup⟩

/-- Rounding is idempotent: a rounded value is a double. -/
theorem roundQ_idem (x : ℚ) : roundQ (roundQ x) = roundQ x := by
  have h2 : (2 : ℚ) ≠ 0 := by norm_num
  set k := roundEven (x / 2 ^ ulpExp x) with hk
  set b := ulpExp x with hb
  have hr : roundQ x = k * 2 ^ b := rfl
  by_cases h0 : roundQ x = 0
  · rw [h0, roundQ_zero]
  have hkabs : |k| ≤ 2 ^ 53 := abs_roundEven_le x
  have habs : |roundQ x| = (|k| : ℤ) * 2 ^ b := by
    rw [hr, abs_mul, abs_of_pos (two_zpow_pos b)]
    push_cast
    rfl
  obtain ⟨hs1, hs2⟩ := ilog2_spec (roundQ x) h0
  rcases hkabs.lt_or_eq with hlt | heq
  · -- `|k| < 2 ^ 53`: the unit exponent of the result is at most `b`
    have hlt' : ((|k| : ℤ) : ℚ) < 2 ^ 53 := by exact_mod_cast hlt
    have hbound : |roundQ x| < 2 ^ (b + 53) := by
      rw [habs, zpow_add₀ h2]
      have : (2 : ℚ) ^ (53 : ℤ) = 2 ^ 53 := by norm_num
      rw [this, mul_comm ((2 : ℚ) ^ b)]
      exact mul_lt_mul_of_pos_right hlt' (two_zpow_pos b)
    have hlog : ilog2 (roundQ x) < b + 53 :=
      two_zpow_lt_iff.mp (lt_of_le_of_lt hs1 hbound)
    have hge := ulpExp_ge x
    refine roundQ_fixed (roundQ x) k b hr ?_
    simp only [ulpExp]
    omega
  · -- `|k| = 2 ^ 53`: the result is `± 2 ^ 52 * 2 ^ (b + 1)`
    have hbound : |roundQ x| = 2 ^ (b + 53) := by
      rw [habs, heq, zpow_add₀ h2]
      norm_num
      ring
    have hlog : ilog2 (roundQ x) < b + 54 := by
      refine two_zpow_lt_iff.mp (lt_of_le_of_lt hs1 ?_)
      rw [hbound]
      exact two_zpow_lt_iff.mpr (by omega)
    have hge := ulpExp_ge x
    have hk2 : k = 2 ^ 53 ∨ k = -2 ^ 53 := by
      rcases abs_cases k with ⟨h, _⟩ | ⟨h, _⟩
      · left; omega
      · right; omega
    have hrep : roundQ x = ((k / 2 : ℤ) : ℚ) * 2 ^ (b + 1) := by
      rw [hr, zpow_add₀ h2]
      rcases hk2 with h | h <;> rw [h] <;> norm_num <;> ring
    refine roundQ_fixed (roundQ x) (k / 2) (b + 1) hrep ?_
    simp only [ulpExp]
    omega

end Double

/-! ## Lemmas on binary64 arithmetic -/

namespace Double

theorem add_def (a b : Double) : a + b = Double.add a b := rfl

theorem sub_def (a b : Double) : a - b = Double.sub a b := rfl

theorem neg_def (a : Double) : -a = Double.neg a := rfl

theorem lt_def (a b : Double) : (a < b) = (Double.lt a b = true) := rfl

theorem le_def (a b : Double) : (a ≤ b) = (Double.le a b = true) := rfl

theorem half_def : (DoubleArith.half : Double) = Double.round (1 / 2) := rfl

theorem zero_def : (DoubleArith.zero : Double) = Double.round 0 := rfl

/-- A finite double is its own rounding. -/
theorem round_fin (v : ℚ) (h : ∃ x, roundQ x = v ∧ |v| < 2 ^ 1024) :
    Double.round v = Double.fin v h := by
  obtain ⟨x, hx, hlt⟩ := h
  have hidem : roundQ v = v := by rw [← hx, roundQ_idem]
  have hcond : |roundQ v| < 2 ^ 1024 := by rwa [hidem]
  simp only [Double.round, dif_pos hcond, Double.fin.injEq]
  exact hidem

/-- The rounding of a rational is an infinity or a finite double, never NaN. -/
theorem round_cases (x : ℚ) :
    (∃ h, Double.round x = Double.fin (roundQ x) h) ∨
      (¬ |roundQ x| < 2 ^ 1024 ∧ Double.round x = Double.inf (decide (x < 0))) := by
  by_cases hc : |roundQ x| < 2 ^ 1024
  · left
    exact ⟨⟨x, rfl, hc⟩, by simp only [Double.round, dif_pos hc]⟩
  · right
    exact ⟨hc, by simp only [Double.round, dif_neg hc]⟩

theorem roundQ_nonpos {x : ℚ} (hx : x ≤ 0) : roundQ x ≤ 0 := by
  have := roundQ_mono hx
  rwa [roundQ_zero] at this

/-- Rounding with overflow is monotone. -/
theorem round_le_round {x y : ℚ} (hxy : x ≤ y) :
    Double.le (Double.round x) (Double.round y) = true := by
  have hmono := roundQ_mono hxy
  rcases round_cases x with ⟨hx, ex⟩ | ⟨hx, ex⟩ <;>
    rcases round_cases y with ⟨hy, ey⟩ | ⟨hy, ey⟩ <;> rw [ex, ey]
  · simpa [Double.le] using hmono
  · have hy0 : ¬ y < 0 := by
      intro hneg
      have h1 := roundQ_nonpos hneg.le
      have h2 : |roundQ x| < 2 ^ 1024 := hx.choose_spec.2
      apply hy
      rw [abs_lt] at h2 ⊢
      constructor <;> linarith [h2.1, h2.2]
    simp [Double.le, hy0]
  · have hx0 : x < 0 := by
      by_contra hpos
      have h1 := roundQ_nonneg (not_lt.mp hpos)
      have h2 : |roundQ y| < 2 ^ 1024 := hy.choose_spec.2
      apply hx
      rw [abs_lt] at h2 ⊢
      constructor <;> linarith [h2.1, h2.2]
    simp [Double.le, hx0]
  · by_cases hy0 : y < 0
    · have hx0 : x < 0 := lt_of_le_of_lt hxy hy0
      simp [Double.le, hx0]
    · simp [Double.le, hy0]

/-- In binary64, `a <= b` excludes `b < a`. -/
theorem lt_eq_false_of_le {a b : Double} (h : Double.le a b = true) :
    Double.lt b a = false := by
  rcases a with _ | a | _ <;> rcases b with _ | b | _ <;>
    first
    | (cases a <;> cases b <;> simp_all [Double.le, Double.lt])
    | simp_all [Double.le, Double.lt]

theorem not_lt_of_le {a b : Double} (h : a ≤ b) : ¬ b < a := by
  rw [le_def] at h
  rw [lt_def, lt_eq_false_of_le h]
  simp

theorem lt_irrefl (a : Double) : Double.lt a a = false := by
  cases a <;> simp [Double.lt]

theorem le_refl_of_ne_nan (a : Double) (h : a ≠ Double.nan) : Double.le a a = true := by
  cases a <;> simp_all [Double.le]

/-- The literal `0.5` is the finite double `1/2`. -/
theorem half_eq_fin : ∃ h, (DoubleArith.half : Double) = Double.fin (1 / 2) h := by
  have hq : roundQ (1 / 2) = 1 / 2 := by decide!
  have hc : |roundQ (1 / 2)| < 2 ^ 1024 := by decide!
  refine ⟨⟨1 / 2, hq, by rw [← hq]; exact hc⟩, ?_⟩
  simp only [half_def, Double.round, dif_pos hc, Double.fin.injEq]
  exact hq

/-- The literal `0.0` is the finite double `0`. -/
theorem zero_eq_fin : ∃ h, (DoubleArith.zero : Double) = Double.fin 0 h := by
  have hc : |roundQ 0| < 2 ^ 1024 := by rw [roundQ_zero]; norm_num
  refine ⟨⟨0, roundQ_zero, by norm_num⟩, ?_⟩
  simp only [zero_def, Double.round, dif_pos hc, Double.fin.injEq]
  exact roundQ_zero

/-- Adding `0.5` to a finite double gives a finite double that is not smaller,
or `+inf`. -/
theorem fin_add_half (x : ℚ) (hx : ∃ y, roundQ y = x ∧ |x| < 2 ^ 1024) :
    (∃ z hz, Double.fin x hx + DoubleArith.half = Double.fin z hz ∧ x ≤ z) ∨
      Double.fin x hx + DoubleArith.half = Double.inf false := by
  obtain ⟨hh, ehalf⟩ := half_eq_fin
  have hsum : Double.fin x hx + DoubleArith.half = Double.round (x + 1 / 2) := by
    rw [ehalf, add_def]
    rfl
  have hidem : roundQ x = x := by
    obtain ⟨y, hy, _⟩ := hx
    rw [← hy, roundQ_idem]
  have hge : x ≤ roundQ (x + 1 / 2) := by
    have := roundQ_mono (show x ≤ x + 1 / 2 by linarith)
    rwa [hidem] at this
  rw [hsum]
  rcases round_cases (x + 1 / 2) with ⟨h, e⟩ | ⟨h, e⟩
  · left
    exact ⟨_, h, e, hge⟩
  · right
    rw [e]
    have hpos : ¬ x + 1 / 2 < 0 := by
      intro hneg
      have h1 := roundQ_nonpos hneg.le
      have h2 : |x| < 2 ^ 1024 := hx.choose_spec.2
      apply h
      rw [abs_lt] at h2 ⊢
      constructor <;> linarith [h2.1, h2.2]
    rw [decide_eq_false hpos]

/-- In binary64 `e + 0.5` is not below `e`, for every `e` that is not NaN. -/
theorem le_add_half (e : Double) (he : e ≠ Double.nan) :
    Double.le e (e + DoubleArith.half) = true := by
  cases e with
  | nan => exact absurd rfl he
  | inf a =>
    obtain ⟨hh, ehalf⟩ := half_eq_fin
    rw [ehalf, add_def]
    simp [Double.add, Double.le]
  | fin x hx =>
    rcases fin_add_half x hx with ⟨z, hz, e, hle⟩ | e <;> rw [e]
    · simpa [Double.le] using hle
    · simp [Double.le]

/-- In binary64 `(e + 0.5) - d` is never below `e - d`. -/
theorem add_half_sub_not_lt (e d : Double) :
    Double.lt (e + DoubleArith.half - d) (e - d) = false := by
  obtain ⟨hh, ehalf⟩ := half_eq_fin
  cases e with
  | nan => simp [ehalf, add_def, sub_def, Double.add, Double.sub, Double.lt]
  | inf a =>
    have : Double.inf a + DoubleArith.half = Double.inf a := by
      rw [ehalf, add_def]; rfl
    rw [this]
    exact lt_irrefl _
  | fin x hx =>
    rcases fin_add_half x hx with ⟨z, hz, e, hle⟩ | e <;> rw [e]
    · cases d with
      | nan => simp [sub_def, Double.sub, Double.lt]
      | inf b => simp [sub_def, Double.sub, Double.lt]
      | fin y hy =>
        simp only [sub_def, Double.sub]
        exact lt_eq_false_of_le (round_le_round (by linarith))
    · cases d with
      | nan => simp [sub_def, Double.sub, Double.lt]
      | inf b => cases b <;> simp [sub_def, Double.sub, Double.lt]
      | fin y hy =>
        simp only [sub_def, Double.sub]
        rcases round_cases (x - y) with ⟨h, e2⟩ | ⟨h, e2⟩ <;> rw [e2] <;>
          simp [Double.lt]

/-- In binary64, for finite `e` and `d`, `e - d <= (e + 0.5) - d`. -/
theorem sub_le_add_half_sub (e d : Double) (he : e.isFinite = true)
    (hd : d.isFinite = true) :
    Double.le (e - d) (e + DoubleArith.half - d) = true := by
  cases e with
  | nan => simp [Double.isFinite] at he
  | inf a => simp [Double.isFinite] at he
  | fin x hx =>
    cases d with
    | nan => simp [Double.isFinite] at hd
    | inf b => simp [Double.isFinite] at hd
    | fin y hy =>
      rcases fin_add_half x hx with ⟨z, hz, e, hle⟩ | e <;> rw [e]
      · simp only [sub_def, Double.sub]
        exact round_le_round (by linarith)
      · simp only [sub_def, Double.sub]
        rcases round_cases (x - y) with ⟨h, e2⟩ | ⟨h, e2⟩ <;> rw [e2] <;>
          simp [Double.le]

/-- Subtracting `0.0` from a finite double leaves it unchanged. -/
theorem sub_zero_of_isFinite (e : Double) (he : e.isFinite = true) :
    e - DoubleArith.zero = e := by
  obtain ⟨hz, ezero⟩ := zero_eq_fin
  cases e with
  | nan => simp [Double.isFinite] at he
  | inf a => simp [Double.isFinite] at he
  | fin x hx =>
    rw [ezero, sub_def]
    simp only [Double.sub, sub_zero]
    exact round_fin x hx

/-- In binary64, `a <= b` and `b < m` give `a < m`. -/
theorem le_lt_trans {a b m : Double} (hab : Double.le a b = true)
    (hbm : Double.lt b m = true) : Double.lt a m = true := by
  rcases a with _ | (_ | _) | ⟨x, hx⟩ <;> rcases b with _ | (_ | _) | ⟨y, hy⟩ <;>
    rcases m with _ | (_ | _) | ⟨z, hz⟩ <;>
    simp [Double.le, Double.lt] at hab hbm ⊢
  exact hab.trans_lt hbm

/-- Nothing is above `+inf` or NaN in binary64. -/
theorem lt_ne_top {a m : Double} (h : Double.lt a m = true) :
    a ≠ Double.nan ∧ a ≠ Double.inf false := by
  rcases a with _ | (_ | _) | ⟨x, hx⟩ <;> rcases m with _ | (_ | _) | ⟨z, hz⟩ <;>
    simp [Double.lt] at h ⊢

/-- Everything `-inf` is below is above `-inf`. -/
theorem neg_inf_lt {a m : Double} (h : Double.lt a m = true) :
    Double.lt (Double.inf true) m = true := by
  rcases a with _ | (_ | _) | ⟨x, hx⟩ <;> rcases m with _ | (_ | _) | ⟨z, hz⟩ <;>
    simp [Double.lt] at h ⊢

/-- In binary64, a larger subtrahend keeps the difference below a bound. -/
theorem sub_lt_of_le (c s1 s2 m : Double) (hle : Double.le s1 s2 = true)
    (hlt : Double.lt (c - s1) m = true) : Double.lt (c - s2) m = true := by
  have htop := lt_ne_top hlt
  have hbot := neg_inf_lt hlt
  rcases c with _ | (_ | _) | ⟨x, hx⟩ <;> rcases s1 with _ | (_ | _) | ⟨y1, h1⟩ <;>
    rcases s2 with _ | (_ | _) | ⟨y2, h2⟩ <;>
    simp [sub_def, Double.sub, Double.le] at hle hlt htop hbot ⊢ <;>
    first
    | exact hlt
    | exact hbot
    | exact le_lt_trans (round_le_round (by linarith)) hlt

end Double

/-! ## Lemmas on the obstacle scan -/

variable {D : Type} [DoubleArith D]

@[simp]
theorem half_rat : (DoubleArith.half : ℚ) = 1 / 2 := rfl

@[simp]
theorem zero_rat : (DoubleArith.zero : ℚ) = 0 := rfl

/-- The scan of no item leaves `all_far_away = true`. -/
theorem scan_nil (t : D) : CheckCreepDone.scan t [] = true := rfl

/-- A virtual or non-static item is skipped (`continue`). -/
theorem scan_cons_skip (t : D) (p : PathObstacle D) (rest : List (PathObstacle D))
    (h : p.obstacle.IsVirtual = true ∨ p.obstacle.IsStatic = false) :
    CheckCreepDone.scan t (p :: rest) = CheckCreepDone.scan t rest := by
  rcases h with h | h <;> simp [CheckCreepDone.scan, h]

/-- A real static item is tested against the threshold. -/
theorem scan_cons_real (t : D) (p : PathObstacle D) (rest : List (PathObstacle D))
    (hv : p.obstacle.IsVirtual = false) (hs : p.obstacle.IsStatic = true) :
    CheckCreepDone.scan t (p :: rest) =
      if p.reference_line_st_boundary.min_t < t then false
      else CheckCreepDone.scan t rest := by
  simp [CheckCreepDone.scan, hv, hs]

/-- The scan ends with `all_far_away = false` exactly when some real static
item has a boundary time below the threshold. -/
theorem scan_eq_false_iff (t : D) (items : List (PathObstacle D)) :
    CheckCreepDone.scan t items = false ↔
      ∃ p ∈ items, p.obstacle.IsVirtual = false ∧ p.obstacle.IsStatic = true ∧
        p.reference_line_st_boundary.min_t < t := by
  induction items with
  | nil => simp [CheckCreepDone.scan]
  | cons p rest ih =>
    by_cases hskip : p.obstacle.IsVirtual = true ∨ p.obstacle.IsStatic = false
    · rw [scan_cons_skip t p rest hskip, ih]
      constructor
      · rintro ⟨q, hq, hrest⟩
        exact ⟨q, List.mem_cons_of_mem _ hq, hrest⟩
      · rintro ⟨q, hq, hv, hs, hlt⟩
        rcases List.mem_cons.mp hq with rfl | hq
        · rcases hskip with h | h
          · rw [h] at hv; cases hv
          · rw [h] at hs; cases hs
        · exact ⟨q, hq, hv, hs, hlt⟩
    · have hv : p.obstacle.IsVirtual = false := by
        cases h : p.obstacle.IsVirtual
        · rfl
        · exact absurd (Or.inl h) hskip
      have hs : p.obstacle.IsStatic = true := by
        cases h : p.obstacle.IsStatic
        · exact absurd (Or.inr h) hskip
        · rfl
      rw [scan_cons_real t p rest hv hs]
      by_cases hlt : p.reference_line_st_boundary.min_t < t
      · simp only [hlt, if_true, true_iff]
        exact ⟨p, List.mem_cons_self _ _, hv, hs, hlt⟩
      · simp only [hlt, if_false, ih]
        constructor
        · rintro ⟨q, hq, hrest⟩
          exact ⟨q, List.mem_cons_of_mem _ hq, hrest⟩
        · rintro ⟨q, hq, hv2, hs2, hlt2⟩
          rcases List.mem_cons.mp hq with rfl | hq
          · exact absurd hlt2 hlt
          · exact ⟨q, hq, hv2, hs2, hlt2⟩

/-- The scan ends with `all_far_away = true` exactly when no real static item
has a boundary time below the threshold. -/
theorem scan_eq_true_iff (t : D) (items : List (PathObstacle D)) :
    CheckCreepDone.scan t items = true ↔
      ∀ p ∈ items, p.obstacle.IsVirtual = false → p.obstacle.IsStatic = true →
        ¬ p.reference_line_st_boundary.min_t < t := by
  rw [← Bool.not_eq_false, scan_eq_false_iff]
  constructor
  · intro h p hp hv hs hlt
    exact h ⟨p, hp, hv, hs, hlt⟩
  · rintro h ⟨p, hp, hv, hs, hlt⟩
    exact h p hp hv hs hlt

/-- `CheckCreepDone` unfolded: the distance test, then the scan. -/
theorem CheckCreepDone_eq (config : DeciderCreepConfig D) (frame : Frame D)
    (info : ReferenceLineInfo D) (stop_sign_end_s : D) :
    CheckCreepDone config frame info stop_sign_end_s =
      if stop_sign_end_s + FindCreepDistance frame info - info.AdcSlBoundary.end_s <
          config.max_valid_stop_distance then
        CheckCreepDone.scan config.min_boundary_t info.path_decision.path_obstacles
      else false := rfl

/-- The scan of a concatenation is the conjunction of the two scans. -/
theorem scan_append (t : D) (xs ys : List (PathObstacle D)) :
    CheckCreepDone.scan t (xs ++ ys) =
      (CheckCreepDone.scan t xs && CheckCreepDone.scan t ys) := by
  induction xs with
  | nil => simp [CheckCreepDone.scan]
  | cons p rest ih =>
    by_cases hskip : p.obstacle.IsVirtual || !p.obstacle.IsStatic
    · simp [CheckCreepDone.scan, hskip, ih]
    · by_cases hlt : p.reference_line_st_boundary.min_t < t
      · simp [CheckCreepDone.scan, hskip, hlt]
      · simp [CheckCreepDone.scan, hskip, hlt, ih]

/-- Dropping the virtual and the non-static items does not change the scan. -/
theorem scan_filter (t : D) (items : List (PathObstacle D)) :
    CheckCreepDone.scan t
        (items.filter fun p => !p.obstacle.IsVirtual && p.obstacle.IsStatic) =
      CheckCreepDone.scan t items := by
  induction items with
  | nil => rfl
  | cons p rest ih =>
    cases hv : p.obstacle.IsVirtual <;> cases hs : p.obstacle.IsStatic <;>
      simp [List.filter, CheckCreepDone.scan, hv, hs, ih]

/-! ## Theorems on CheckCreepDone -/

/-- C1: in binary64, `CheckCreepDone` returns `false` if some non-virtual static
obstacle of the list has a boundary time strictly below `min_boundary_t`, and
returns `true` if there is no such obstacle and the distance the code computes,
`distance = stop_sign_end_s + FindCreepDistance - adc_front_edge_s` with both
operations rounded, is below `max_valid_stop_distance`. -/
theorem CheckCreepDone_blocked_or_done (config : DeciderCreepConfig Double)
    (frame : Frame Double) (info : ReferenceLineInfo Double) (stop_sign_end_s : Double) :
    ((∃ p ∈ info.path_decision.path_obstacles,
          p.obstacle.IsVirtual = false ∧ p.obstacle.IsStatic = true ∧
            p.reference_line_st_boundary.min_t < config.min_boundary_t) →
        CheckCreepDone config frame info stop_sign_end_s = false) ∧
      ((¬ ∃ p ∈ info.path_decision.path_obstacles,
          p.obstacle.IsVirtual = false ∧ p.obstacle.IsStatic = true ∧
            p.reference_line_st_boundary.min_t < config.min_boundary_t) →
        stop_sign_end_s + FindCreepDistance frame info - info.AdcSlBoundary.end_s <
          config.max_valid_stop_distance →
        CheckCreepDone config frame info stop_sign_end_s = true) := by
  constructor
  · intro hblock
    rw [CheckCreepDone_eq]
    split
    · exact (scan_eq_false_iff _ _).mpr hblock
    · rfl
  · intro hnone hdist
    rw [CheckCreepDone_eq, if_pos hdist, ← Bool.not_eq_false, scan_eq_false_iff]
    exact hnone

/-- The scenarios of C1 in binary64.  With `max_valid_stop_distance = 2.0`,
`stop_sign_end_s = 20.0` and front edge `19.0`, the empty obstacle set gives
`true`, and one static real obstacle with boundary time `0.3` under
`min_boundary_t = 0.5` gives `false`.  With `stop_sign_end_s = 15.9` and front
edge `14.4` the computed distance is `1.9999999999999982 < 2.0` and the empty
obstacle set gives `true`. -/
theorem CheckCreepDone_blocked_or_done_witness :
    CheckCreepDone (sampleConfig64 1 2 (1 / 2)) (sampleFrame64 15 0) (sampleInfo64 19 [])
        (Double.round 20) = true ∧
      CheckCreepDone (sampleConfig64 1 2 (1 / 2)) (sampleFrame64 15 0)
        (sampleInfo64 19 [sampleItem64 "car" false true (3 / 10)]) (Double.round 20) =
        false ∧
      Double.round (159 / 10) + FindCreepDistance (sampleFrame64 10 0)
          (sampleInfo64 (144 / 10) []) - (sampleInfo64 (144 / 10) []).AdcSlBoundary.end_s =
        Double.round (1125899906842623 / 562949953421312) ∧
      CheckCreepDone (sampleConfig64 1 2 (1 / 2)) (sampleFrame64 10 0)
        (sampleInfo64 (144 / 10) []) (Double.round (159 / 10)) = true :=
  ⟨(CheckCreepDone_blocked_or_done (sampleConfig64 1 2 (1 / 2)) (sampleFrame64 15 0)
      (sampleInfo64 19 []) (Double.round 20)).2
      (by simp [sampleInfo64]) (by decide!),
    (CheckCreepDone_blocked_or_done (sampleConfig64 1 2 (1 / 2)) (sampleFrame64 15 0)
      (sampleInfo64 19 [sampleItem64 "car" false true (3 / 10)]) (Double.round 20)).1
      ⟨sampleItem64 "car" false true (3 / 10), by simp [sampleInfo64], rfl, rfl,
        by decide!⟩,
    by decide!,
    (CheckCreepDone_blocked_or_done (sampleConfig64 1 2 (1 / 2)) (sampleFrame64 10 0)
      (sampleInfo64 (144 / 10) []) (Double.round (159 / 10))).2
      (by simp [sampleInfo64]) (by decide!)⟩

/-- C2: in binary64, whatever the obstacle list, `CheckCreepDone` returns `false`
when the distance the code computes,
`distance = stop_sign_end_s + FindCreepDistance - adc_front_edge_s` with both
operations rounded, is greater than or equal to `max_valid_stop_distance`. -/
theorem CheckCreepDone_false_of_far (config : DeciderCreepConfig Double)
    (frame : Frame Double) (info : ReferenceLineInfo Double) (stop_sign_end_s : Double)
    (hfar : config.max_valid_stop_distance ≤
      stop_sign_end_s + FindCreepDistance frame info - info.AdcSlBoundary.end_s) :
    CheckCreepDone config frame info stop_sign_end_s = false := by
  rw [CheckCreepDone_eq, if_neg (Double.not_lt_of_le hfar)]

/-- The scenarios of C2 in binary64.  With `max_valid_stop_distance = 2.0`,
`stop_sign_end_s = 20.0` and front edge `18.5` the distance is exactly `2.0`
and the result is `false`.  With `stop_sign_end_s = 1.7` and front edge `0.2`
the computed distance is `2.0` as well (the exact difference of the two
doubles and `0.5` lies below `2`), and the result is `false`. -/
theorem CheckCreepDone_false_of_far_witness :
    Double.round 20 + FindCreepDistance (sampleFrame64 15 0) (sampleInfo64 (37 / 2) []) -
        (sampleInfo64 (37 / 2) []).AdcSlBoundary.end_s = Double.round 2 ∧
      CheckCreepDone (sampleConfig64 1 2 (1 / 2)) (sampleFrame64 15 0)
        (sampleInfo64 (37 / 2) []) (Double.round 20) = false ∧
      Double.round (17 / 10) + FindCreepDistance (sampleFrame64 0 0)
          (sampleInfo64 (2 / 10) []) - (sampleInfo64 (2 / 10) []).AdcSlBoundary.end_s =
        Double.round 2 ∧
      CheckCreepDone (sampleConfig64 1 2 (1 / 2)) (sampleFrame64 0 0)
        (sampleInfo64 (2 / 10) []) (Double.round (17 / 10)) = false :=
  ⟨by decide!,
    CheckCreepDone_false_of_far (sampleConfig64 1 2 (1 / 2)) (sampleFrame64 15 0)
      (sampleInfo64 (37 / 2) []) (Double.round 20) (by decide!),
    by decide!,
    CheckCreepDone_false_of_far (sampleConfig64 1 2 (1 / 2)) (sampleFrame64 0 0)
      (sampleInfo64 (2 / 10) []) (Double.round (17 / 10)) (by decide!)⟩

/-- C3: the time comparison is strict.  In binary64, when the distance the code
computes is below `max_valid_stop_distance` and every non-virtual static
obstacle has a boundary time greater than or equal to `min_boundary_t`,
`CheckCreepDone` returns `true`; an obstacle at exactly `min_boundary_t` does
not block. -/
theorem CheckCreepDone_true_of_clear (config : DeciderCreepConfig Double)
    (frame : Frame Double) (info : ReferenceLineInfo Double) (stop_sign_end_s : Double)
    (hnear : stop_sign_end_s + FindCreepDistance frame info - info.AdcSlBoundary.end_s <
      config.max_valid_stop_distance)
    (hclear : ∀ p ∈ info.path_decision.path_obstacles,
      p.obstacle.IsVirtual = false → p.obstacle.IsStatic = true →
        config.min_boundary_t ≤ p.reference_line_st_boundary.min_t) :
    CheckCreepDone config frame info stop_sign_end_s = true := by
  rw [CheckCreepDone_eq, if_pos hnear]
  exact (scan_eq_true_iff _ _).mpr fun p hp hv hs =>
    Double.not_lt_of_le (hclear p hp hv hs)

/-- The equality case of C3 in binary64: a static real obstacle whose boundary
time is exactly `min_boundary_t` does not block completion, for
`min_boundary_t = 0.5` with front edge `19.0`, and for `min_boundary_t = 0.3`
with the front edge `14.4` and `stop_sign_end_s = 15.9`. -/
theorem CheckCreepDone_true_of_clear_witness :
    (sampleItem64 "car" false true (1 / 2)).reference_line_st_boundary.min_t =
        (sampleConfig64 1 2 (1 / 2)).min_boundary_t ∧
      CheckCreepDone (sampleConfig64 1 2 (1 / 2)) (sampleFrame64 15 0)
        (sampleInfo64 19 [sampleItem64 "car" false true (1 / 2)]) (Double.round 20) =
        true ∧
      CheckCreepDone (sampleConfig64 1 2 (3 / 10)) (sampleFrame64 10 0)
        (sampleInfo64 (144 / 10) [sampleItem64 "car" false true (3 / 10)])
        (Double.round (159 / 10)) = true :=
  ⟨rfl,
    CheckCreepDone_true_of_clear (sampleConfig64 1 2 (1 / 2)) (sampleFrame64 15 0)
      (sampleInfo64 19 [sampleItem64 "car" false true (1 / 2)]) (Double.round 20)
      (by decide!) (by decide!),
    CheckCreepDone_true_of_clear (sampleConfig64 1 2 (3 / 10)) (sampleFrame64 10 0)
      (sampleInfo64 (144 / 10) [sampleItem64 "car" false true (3 / 10)])
      (Double.round (159 / 10)) (by decide!) (by decide!)⟩

/-- C4: virtual and non-static obstacles never influence `CheckCreepDone`: the
result equals the result on the list with every virtual and every non-static
obstacle removed, and inserting at any position an obstacle that is virtual or
not static, whatever its boundary time, leaves the result unchanged.  This
holds in every arithmetic, binary64 and exact. -/
theorem CheckCreepDone_ignores_virtual_and_moving (config : DeciderCreepConfig D)
    (frame : Frame D) (info : ReferenceLineInfo D) (stop_sign_end_s : D) :
    CheckCreepDone config frame
        (info.withItems (info.path_decision.path_obstacles.filter fun p =>
          !p.obstacle.IsVirtual && p.obstacle.IsStatic)) stop_sign_end_s =
        CheckCreepDone config frame info stop_sign_end_s ∧
      ∀ (before after : List (PathObstacle D)) (p : PathObstacle D),
        p.obstacle.IsVirtual = true ∨ p.obstacle.IsStatic = false →
        CheckCreepDone config frame (info.withItems (before ++ p :: after))
            stop_sign_end_s =
          CheckCreepDone config frame (info.withItems (before ++ after))
            stop_sign_end_s := by
  constructor
  · simp only [CheckCreepDone_eq, ReferenceLineInfo.withItems, FindCreepDistance,
      scan_filter]
  · intro before after p hskip
    simp only [CheckCreepDone_eq, ReferenceLineInfo.withItems, FindCreepDistance,
      scan_append, scan_cons_skip _ p after hskip]

/-- An instance of C4: a virtual obstacle and a moving obstacle, both with
boundary time `0.1` below `min_boundary_t = 0.5`, are inserted around a clear
static obstacle; the result stays `true`. -/
theorem CheckCreepDone_ignores_virtual_and_moving_witness :
    CheckCreepDone ⟨1, 2, 1 / 2⟩ (sampleFrame 15 0)
        ((sampleInfo 19 []).withItems
          ([sampleItem "wall" true true (1 / 10)] ++
            sampleItem "bike" false false (1 / 10) ::
              [sampleItem "car" false true 3])) 20 =
        CheckCreepDone ⟨1, 2, 1 / 2⟩ (sampleFrame 15 0)
          ((sampleInfo 19 []).withItems
            ([sampleItem "wall" true true (1 / 10)] ++ [sampleItem "car" false true 3])) 20 ∧
      CheckCreepDone ⟨1, 2, 1 / 2⟩ (sampleFrame 15 0)
        ((sampleInfo 19 []).withItems
          ([sampleItem "wall" true true (1 / 10)] ++ [sampleItem "car" false true 3])) 20 =
        true :=
  ⟨(CheckCreepDone_ignores_virtual_and_moving ⟨1, 2, 1 / 2⟩ (sampleFrame 15 0)
      (sampleInfo 19 []) 20).2 [sampleItem "wall" true true (1 / 10)]
      [sampleItem "car" false true 3] (sampleItem "bike" false false (1 / 10))
      (Or.inr rfl),
    by norm_num [CheckCreepDone, CheckCreepDone.scan, ReferenceLineInfo.withItems,
      sampleInfo, sampleItem, FindCreepDistance, half_rat]⟩

/-! ## Lemmas on BuildStopDecision -/

/-- The three ways a run of `BuildStopDecision` on non-null arguments ends:
creation refused, registration refused, or success.  In each the result is
given in full. -/
theorem BuildStopDecision_cases (host : Host D) (config : DeciderCreepConfig D)
    (frame : Frame D) (info : ReferenceLineInfo D) :
    (∃ frame1 info1,
        host.CreateStopObstacle frame info (host.CREEP_VO_ID_PREFIX ++ "test")
            (info.AdcSlBoundary.end_s + FindCreepDistance frame info) =
          (frame1, info1, none) ∧
        BuildStopDecision host config (some frame) (some info) =
          some ⟨false, frame1, info1,
            [HostCall.CreateStopObstacle (host.CREEP_VO_ID_PREFIX ++ "test")
              (info.AdcSlBoundary.end_s + FindCreepDistance frame info)]⟩) ∨
      (∃ frame1 info1 obstacle info2,
        host.CreateStopObstacle frame info (host.CREEP_VO_ID_PREFIX ++ "test")
            (info.AdcSlBoundary.end_s + FindCreepDistance frame info) =
          (frame1, info1, some obstacle) ∧
        host.AddObstacle info1 obstacle = (info2, none) ∧
        BuildStopDecision host config (some frame) (some info) =
          some ⟨false, frame1, info2,
            [HostCall.CreateStopObstacle (host.CREEP_VO_ID_PREFIX ++ "test")
              (info.AdcSlBoundary.end_s + FindCreepDistance frame info),
              HostCall.AddObstacle obstacle]⟩) ∨
      (∃ frame1 info1 obstacle info2 stop_wall,
        host.CreateStopObstacle frame info (host.CREEP_VO_ID_PREFIX ++ "test")
            (info.AdcSlBoundary.end_s + FindCreepDistance frame info) =
          (frame1, info1, some obstacle) ∧
        host.AddObstacle info1 obstacle = (info2, some stop_wall) ∧
        BuildStopDecision host config (some frame) (some info) =
          some ⟨true, frame1,
            { info2 with
              path_decision :=
                host.AddLongitudinalDecision info2.path_decision "Creeper" stop_wall.Id
                  (builtStop info2.reference_line
                    (info.AdcSlBoundary.end_s + FindCreepDistance frame info)
                    config.stop_distance) },
            [HostCall.CreateStopObstacle (host.CREEP_VO_ID_PREFIX ++ "test")
              (info.AdcSlBoundary.end_s + FindCreepDistance frame info),
              HostCall.AddObstacle obstacle,
              HostCall.GetReferencePoint
                (info.AdcSlBoundary.end_s + FindCreepDistance frame info -
                  config.stop_distance),
              HostCall.GetReferencePoint
                (info.AdcSlBoundary.end_s + FindCreepDistance frame info -
                  config.stop_distance),
              HostCall.AddLongitudinalDecision "Creeper" stop_wall.Id
                (builtStop info2.reference_line
                  (info.AdcSlBoundary.end_s + FindCreepDistance frame info)
                  config.stop_distance)]⟩) := by
  rcases hc : host.CreateStopObstacle frame info (host.CREEP_VO_ID_PREFIX ++ "test")
      (info.AdcSlBoundary.end_s + FindCreepDistance frame info) with
    ⟨frame1, info1, created⟩
  cases created with
  | none =>
    left
    exact ⟨frame1, info1, rfl, by simp only [BuildStopDecision, hc]⟩
  | some obstacle =>
    right
    rcases ha : host.AddObstacle info1 obstacle with ⟨info2, added⟩
    cases added with
    | none =>
      left
      exact ⟨frame1, info1, obstacle, info2, rfl, ha, by
        simp only [BuildStopDecision, hc, ha]⟩
    | some stop_wall =>
      right
      exact ⟨frame1, info1, obstacle, info2, stop_wall, rfl, ha, by
        simp only [BuildStopDecision, hc, ha, builtStop]⟩

/-- On non-null arguments `BuildStopDecision` returns. -/
theorem BuildStopDecision_total (host : Host D) (config : DeciderCreepConfig D)
    (frame : Frame D) (info : ReferenceLineInfo D) :
    ∃ built, BuildStopDecision host config (some frame) (some info) = some built := by
  rcases BuildStopDecision_cases host config frame info with
    ⟨_, _, _, h⟩ | ⟨_, _, _, _, _, _, h⟩ | ⟨_, _, _, _, _, _, _, h⟩ <;> exact ⟨_, h⟩

/-- A successful run, in full: the host created `obstacle`, registered it as
`stop_wall`, and the calls are the five of the source, in order. -/
theorem BuildStopDecision_success (host : Host D) (config : DeciderCreepConfig D)
    (frame : Frame D) (info : ReferenceLineInfo D) (built : BuildResult D)
    (hrun : BuildStopDecision host config (some frame) (some info) = some built)
    (hok : built.ok = true) :
    ∃ (obstacle : Obstacle) (stop_wall : PathObstacle D),
      built.calls =
        [HostCall.CreateStopObstacle (host.CREEP_VO_ID_PREFIX ++ "test")
          (info.AdcSlBoundary.end_s + FindCreepDistance frame info),
          HostCall.AddObstacle obstacle,
          HostCall.GetReferencePoint
            (info.AdcSlBoundary.end_s + FindCreepDistance frame info -
              config.stop_distance),
          HostCall.GetReferencePoint
            (info.AdcSlBoundary.end_s + FindCreepDistance frame info -
              config.stop_distance),
          HostCall.AddLongitudinalDecision "Creeper" stop_wall.Id
            (builtStop built.reference_line_info.reference_line
              (info.AdcSlBoundary.end_s + FindCreepDistance frame info)
              config.stop_distance)] := by
  rcases BuildStopDecision_cases host config frame info with
    ⟨_, _, _, h⟩ | ⟨_, _, _, _, _, _, h⟩ | ⟨_, _, obstacle, _, stop_wall, _, _, h⟩
  · rw [h] at hrun
    cases hrun
    cases hok
  · rw [h] at hrun
    cases hrun
    cases hok
  · rw [h] at hrun
    cases hrun
    exact ⟨obstacle, stop_wall, rfl⟩

/-- The run of `BuildStopDecision` on the sample input gives `sampleBuilt`. -/
theorem sampleBuilt_run (stop_distance : ℚ) :
    BuildStopDecision sampleHost ⟨stop_distance, 2, 1 / 2⟩ (some (sampleFrame 6 0))
        (some (sampleInfo 10 [])) = some (sampleBuilt stop_distance) := by
  have h3 : "CREEP_" ++ "test" = "CREEP_test" := by decide
  simp only [BuildStopDecision, sampleHost, sampleFrame, sampleInfo, sampleBuilt,
    sampleReferenceLine, FindCreepDistance, PathObstacle.Id, h3]
  norm_num

/-! ## Theorems on BuildStopDecision and Process -/

/-- C5: on every frame and reference line state on which `BuildStopDecision`
succeeds, a stop constraint is registered into the longitudinal decision set,
and every constraint registered has `distance_s` equal to exactly
`-stop_distance`.  This holds for every configured `stop_distance`, the
non-negative ones among them. -/
theorem BuildStopDecision_distance_s (host : Host D) (config : DeciderCreepConfig D)
    (frame : Frame D) (info : ReferenceLineInfo D) (built : BuildResult D)
    (hrun : BuildStopDecision host config (some frame) (some info) = some built)
    (hok : built.ok = true) :
    (∃ tag object_id stop,
        HostCall.AddLongitudinalDecision tag object_id (ObjectDecisionType.stop stop) ∈
          built.calls) ∧
      ∀ tag object_id decision,
        HostCall.AddLongitudinalDecision tag object_id decision ∈ built.calls →
        ∃ stop, decision = ObjectDecisionType.stop stop ∧
          stop.distance_s = -config.stop_distance := by
  obtain ⟨obstacle, stop_wall, hcalls⟩ :=
    BuildStopDecision_success host config frame info built hrun hok
  rw [hcalls]
  constructor
  · simp only [builtStop]
    exact ⟨"Creeper", stop_wall.Id, _,
      List.mem_cons_of_mem _ (List.mem_cons_of_mem _ (List.mem_cons_of_mem _
        (List.mem_cons_of_mem _ (List.mem_cons_self _ _))))⟩
  · intro tag object_id decision hmem
    simp only [List.mem_cons, List.mem_singleton, List.not_mem_nil, or_false,
      reduceCtorEq, false_or, HostCall.AddLongitudinalDecision.injEq] at hmem
    obtain ⟨_, _, hd⟩ := hmem
    exact ⟨_, hd, rfl⟩

/-- The scenario of C5: with `stop_distance = 1.0` the run on the sample input
succeeds and the registered constraint has `distance_s = -1.0`. -/
theorem BuildStopDecision_distance_s_witness :
    0 ≤ (DeciderCreepConfig.mk 1 2 (1 / 2)).stop_distance ∧
      (sampleBuilt 1).ok = true ∧
      ∀ tag object_id decision,
        HostCall.AddLongitudinalDecision tag object_id decision ∈ (sampleBuilt 1).calls →
        ∃ stop, decision = ObjectDecisionType.stop stop ∧ stop.distance_s = -1 :=
  ⟨by norm_num, rfl,
    (BuildStopDecision_distance_s sampleHost ⟨1, 2, 1 / 2⟩ (sampleFrame 6 0)
      (sampleInfo 10 []) (sampleBuilt 1) (sampleBuilt_run 1) rfl).2⟩

/-- C6: for every frame and reference line state, `BuildStopDecision` runs and
its first host call asks for the virtual stop obstacle at an arc-length
`creep_stop_s` that is greater than or equal to the vehicle's front edge
`adc_front_edge_s` (`AdcSlBoundary().end_s()`), the creep distance returned by
`FindCreepDistance` being non-negative.  Stated in exact arithmetic;
`BuildStopDecision_creep_stop_s_ahead_binary64` is the same bound with the
sum rounded as the code rounds it. -/
theorem BuildStopDecision_creep_stop_s_ahead (host : Host ℚ) (config : DeciderCreepConfig ℚ)
    (frame : Frame ℚ) (info : ReferenceLineInfo ℚ) :
    0 ≤ FindCreepDistance frame info ∧
      ∃ built, BuildStopDecision host config (some frame) (some info) = some built ∧
        (∃ obstacle_id creep_stop_s,
          built.calls.head? = some (HostCall.CreateStopObstacle obstacle_id creep_stop_s)) ∧
        ∀ obstacle_id creep_stop_s,
          HostCall.CreateStopObstacle obstacle_id creep_stop_s ∈ built.calls →
          info.AdcSlBoundary.end_s ≤ creep_stop_s := by
  have hpos : (0 : ℚ) ≤ FindCreepDistance frame info := by
    norm_num [FindCreepDistance]
  refine ⟨hpos, ?_⟩
  rcases BuildStopDecision_cases host config frame info with
    ⟨_, _, _, h⟩ | ⟨_, _, _, _, _, _, h⟩ | ⟨_, _, _, _, _, _, _, h⟩ <;>
  · refine ⟨_, h, ⟨_, _, rfl⟩, ?_⟩
    intro obstacle_id creep_stop_s hmem
    simp only [List.mem_cons, List.mem_singleton, List.not_mem_nil, or_false,
      reduceCtorEq, HostCall.CreateStopObstacle.injEq] at hmem
    obtain ⟨_, rfl⟩ := hmem
    linarith

/-- An instance of C6: on the sample input with front edge `10.0` the stop
obstacle is requested at `10.5`. -/
theorem BuildStopDecision_creep_stop_s_ahead_witness :
    HostCall.CreateStopObstacle "CREEP_test" (21 / 2) ∈ (sampleBuilt 1).calls ∧
      (sampleInfo 10 []).AdcSlBoundary.end_s ≤ 21 / 2 := by
  obtain ⟨_, built, hrun, _, hall⟩ :=
    BuildStopDecision_creep_stop_s_ahead sampleHost ⟨1, 2, 1 / 2⟩ (sampleFrame 6 0)
      (sampleInfo 10 [])
  have hb : built = sampleBuilt 1 :=
    Option.some.inj (hrun.symm.trans (sampleBuilt_run 1))
  subst hb
  have hmem : HostCall.CreateStopObstacle "CREEP_test" (21 / 2) ∈ (sampleBuilt 1).calls := by
    simp [sampleBuilt]
  exact ⟨hmem, hall _ _ hmem⟩

/-- C8: for every non-null frame and reference line info, `Process` returns
the success status `Status::OK()`, with the state and host calls that the run
of `BuildStopDecision` left, whatever flag that run returned: a failure of the
builder is not escalated. -/
theorem Process_always_OK (host : Host D) (config : DeciderCreepConfig D) (frame : Frame D)
    (info : ReferenceLineInfo D) :
    ∃ built, BuildStopDecision host config (some frame) (some info) = some built ∧
      Process host config (some frame) (some info) =
        some ⟨Status.OK, built.frame, built.reference_line_info, built.calls⟩ := by
  obtain ⟨built, hrun⟩ := BuildStopDecision_total host config frame info
  exact ⟨built, hrun, by simp only [Process, hrun]⟩

/-- An instance of C8 with a failing builder: on a host that refuses to create
the stop obstacle `BuildStopDecision` returns `false`, and `Process` still
returns `Status::OK()`. -/
theorem Process_always_OK_witness :
    (∃ built, BuildStopDecision refusingHost ⟨1, 2, 1 / 2⟩ (some (sampleFrame 6 0))
        (some (sampleInfo 10 [])) = some built ∧ built.ok = false) ∧
      (Process refusingHost ⟨1, 2, 1 / 2⟩ (some (sampleFrame 6 0))
        (some (sampleInfo 10 []))).map ProcessResult.status = some Status.OK := by
  constructor
  · exact ⟨_, rfl, rfl⟩
  · obtain ⟨built, _, hprocess⟩ :=
      Process_always_OK refusingHost ⟨1, 2, 1 / 2⟩ (sampleFrame 6 0) (sampleInfo 10 [])
    rw [hprocess]
    rfl

/-! ## The obstacle id and the failure paths of BuildStopDecision -/

/-- C11, refuted as stated: the id under which the stop obstacle is requested
is not the prefix followed by the identifier of the triggering feature.  For a
feature with identifier `stop_sign_12` the run on the sample input requests the
obstacle under `CREEP_test`. -/
theorem BuildStopDecision_id_not_from_feature :
    BuildStopDecision sampleHost ⟨1, 2, 1 / 2⟩ (some (sampleFrame 6 0))
        (some (sampleInfo 10 [])) = some (sampleBuilt 1) ∧
      (sampleBuilt 1).calls.head? = some (HostCall.CreateStopObstacle "CREEP_test" (21 / 2)) ∧
      "CREEP_test" ≠
        sampleHost.CREEP_VO_ID_PREFIX ++ (PathOverlap.mk "stop_sign_12").object_id :=
  ⟨sampleBuilt_run 1, rfl, by decide⟩

/-- C11, amended: the id that `BuildStopDecision` passes to the host is the
fixed prefix `CREEP_VO_ID_PREFIX` followed by the fixed placeholder `test`, so
any two runs, on any configurations, frames and reference line states, request
the stop obstacle under the same id. -/
theorem BuildStopDecision_id_fixed (host : Host D) (config1 config2 : DeciderCreepConfig D)
    (frame1 frame2 : Frame D) (info1 info2 : ReferenceLineInfo D) :
    ∃ built1 built2 s1 s2,
      BuildStopDecision host config1 (some frame1) (some info1) = some built1 ∧
      BuildStopDecision host config2 (some frame2) (some info2) = some built2 ∧
      built1.calls.head? =
        some (HostCall.CreateStopObstacle (host.CREEP_VO_ID_PREFIX ++ "test") s1) ∧
      built2.calls.head? =
        some (HostCall.CreateStopObstacle (host.CREEP_VO_ID_PREFIX ++ "test") s2) ∧
      ∀ obstacle_id s, HostCall.CreateStopObstacle obstacle_id s ∈ built1.calls ++ built2.calls →
        obstacle_id = host.CREEP_VO_ID_PREFIX ++ "test" := by
  have hone : ∀ (config : DeciderCreepConfig D) (frame : Frame D) (info : ReferenceLineInfo D),
      ∃ built s, BuildStopDecision host config (some frame) (some info) = some built ∧
        built.calls.head? =
          some (HostCall.CreateStopObstacle (host.CREEP_VO_ID_PREFIX ++ "test") s) ∧
        ∀ obstacle_id s, HostCall.CreateStopObstacle obstacle_id s ∈ built.calls →
          obstacle_id = host.CREEP_VO_ID_PREFIX ++ "test" := by
    intro config frame info
    rcases BuildStopDecision_cases host config frame info with
      ⟨_, _, _, h⟩ | ⟨_, _, _, _, _, _, h⟩ | ⟨_, _, _, _, _, _, _, h⟩ <;>
    · refine ⟨_, _, h, rfl, ?_⟩
      intro obstacle_id s hmem
      simp only [List.mem_cons, List.mem_singleton, List.not_mem_nil, or_false,
        reduceCtorEq, HostCall.CreateStopObstacle.injEq] at hmem
      exact hmem.1
  obtain ⟨built1, s1, hrun1, hhead1, hall1⟩ := hone config1 frame1 info1
  obtain ⟨built2, s2, hrun2, hhead2, hall2⟩ := hone config2 frame2 info2
  refine ⟨built1, built2, s1, s2, hrun1, hrun2, hhead1, hhead2, ?_⟩
  intro obstacle_id s hmem
  rcases List.mem_append.mp hmem with h | h
  · exact hall1 _ _ h
  · exact hall2 _ _ h

/-- An instance of the amended C11: two runs on the sample host, with front
edges `10.0` and `30.0` and different configurations, request the obstacle
under the one id `CREEP_test`. -/
theorem BuildStopDecision_id_fixed_witness :
    ∃ built1 built2 s1 s2,
      BuildStopDecision sampleHost ⟨1, 2, 1 / 2⟩ (some (sampleFrame 6 0))
        (some (sampleInfo 10 [])) = some built1 ∧
      BuildStopDecision sampleHost ⟨3, 2, 1 / 2⟩ (some (sampleFrame 26 0))
        (some (sampleInfo 30 [])) = some built2 ∧
      built1.calls.head? = some (HostCall.CreateStopObstacle "CREEP_test" s1) ∧
      built2.calls.head? = some (HostCall.CreateStopObstacle "CREEP_test" s2) := by
  obtain ⟨built1, built2, s1, s2, hrun1, hrun2, hhead1, hhead2, _⟩ :=
    BuildStopDecision_id_fixed sampleHost ⟨1, 2, 1 / 2⟩ ⟨3, 2, 1 / 2⟩ (sampleFrame 6 0)
      (sampleFrame 26 0) (sampleInfo 10 []) (sampleInfo 30 [])
  have hid : sampleHost.CREEP_VO_ID_PREFIX ++ "test" = "CREEP_test" := by decide
  rw [hid] at hhead1 hhead2
  exact ⟨built1, built2, s1, s2, hrun1, hrun2, hhead1, hhead2⟩

/-- C12: if the host's `CreateStopObstacle` returns no obstacle,
`BuildStopDecision` returns failure and makes no further host call: the frame
and the reference line state (obstacle set and decision set) are exactly as
the creation call left them, nothing is registered and no longitudinal decision
is added. -/
theorem BuildStopDecision_creation_refused (host : Host D) (config : DeciderCreepConfig D)
    (frame frame1 : Frame D) (info info1 : ReferenceLineInfo D)
    (hrefused :
      host.CreateStopObstacle frame info (host.CREEP_VO_ID_PREFIX ++ "test")
          (info.AdcSlBoundary.end_s + FindCreepDistance frame info) =
        (frame1, info1, none)) :
    ∃ built, BuildStopDecision host config (some frame) (some info) = some built ∧
      built.ok = false ∧ built.frame = frame1 ∧ built.reference_line_info = info1 ∧
      built.calls =
        [HostCall.CreateStopObstacle (host.CREEP_VO_ID_PREFIX ++ "test")
          (info.AdcSlBoundary.end_s + FindCreepDistance frame info)] ∧
      (∀ obstacle, HostCall.AddObstacle obstacle ∉ built.calls) ∧
      ∀ tag object_id decision,
        HostCall.AddLongitudinalDecision tag object_id decision ∉ built.calls := by
  refine ⟨⟨false, frame1, info1,
    [HostCall.CreateStopObstacle (host.CREEP_VO_ID_PREFIX ++ "test")
      (info.AdcSlBoundary.end_s + FindCreepDistance frame info)]⟩,
    by simp only [BuildStopDecision, hrefused], rfl, rfl, rfl, rfl, ?_, ?_⟩
  · intro obstacle hmem
    simp at hmem
  · intro tag object_id decision hmem
    simp at hmem

/-- An instance of C12: on the host that refuses to create the stop obstacle
the run returns `false`, the obstacle set of the reference line is still the
one tracked obstacle it had, and the only host call is the creation request. -/
theorem BuildStopDecision_creation_refused_witness :
    ∃ built,
      BuildStopDecision refusingHost ⟨1, 2, 1 / 2⟩ (some (sampleFrame 6 0))
        (some (sampleInfo 10 [sampleItem "car" false true 3])) = some built ∧
      built.ok = false ∧ built.frame = sampleFrame 6 0 ∧
      built.reference_line_info.path_decision = ⟨[sampleItem "car" false true 3]⟩ ∧
      built.calls.length = 1 := by
  obtain ⟨built, hrun, hok, hframe, hinfo, hcalls, _⟩ :=
    BuildStopDecision_creation_refused refusingHost ⟨1, 2, 1 / 2⟩ (sampleFrame 6 0)
      (sampleFrame 6 0) (sampleInfo 10 [sampleItem "car" false true 3])
      (sampleInfo 10 [sampleItem "car" false true 3]) rfl
  exact ⟨built, hrun, hok, hframe, by rw [hinfo]; rfl, by rw [hcalls]; rfl⟩

/-- C13: `BuildStopDecision` returns success if and only if the host's
obstacle creation returns an obstacle and the registration of that obstacle
into the reference line's obstacle set returns a path obstacle; when the
registration fails it returns failure, the state is as the registration call
left it, and no longitudinal decision is added. -/
theorem BuildStopDecision_ok_iff (host : Host D) (config : DeciderCreepConfig D)
    (frame : Frame D) (info : ReferenceLineInfo D) :
    ∃ built, BuildStopDecision host config (some frame) (some info) = some built ∧
      (built.ok = true ↔
        ∃ frame1 info1 obstacle info2 stop_wall,
          host.CreateStopObstacle frame info (host.CREEP_VO_ID_PREFIX ++ "test")
              (info.AdcSlBoundary.end_s + FindCreepDistance frame info) =
            (frame1, info1, some obstacle) ∧
          host.AddObstacle info1 obstacle = (info2, some stop_wall)) ∧
      ∀ frame1 info1 obstacle info2,
        host.CreateStopObstacle frame info (host.CREEP_VO_ID_PREFIX ++ "test")
            (info.AdcSlBoundary.end_s + FindCreepDistance frame info) =
          (frame1, info1, some obstacle) →
        host.AddObstacle info1 obstacle = (info2, none) →
        built.ok = false ∧ built.reference_line_info = info2 ∧
          ∀ tag object_id decision,
            HostCall.AddLongitudinalDecision tag object_id decision ∉ built.calls := by
  rcases BuildStopDecision_cases host config frame info with
    ⟨f1, i1, hc, h⟩ | ⟨f1, i1, o, i2, hc, ha, h⟩ | ⟨f1, i1, o, i2, w, hc, ha, h⟩
  · refine ⟨_, h, ⟨fun hok => (by cases hok), ?_⟩, ?_⟩
    · rintro ⟨_, _, _, _, _, hc2, _⟩
      rw [hc] at hc2
      simp at hc2
    · intro _ _ _ _ hc2 _
      rw [hc] at hc2
      simp at hc2
  · refine ⟨_, h, ⟨fun hok => (by cases hok), ?_⟩, ?_⟩
    · rintro ⟨_, _, _, _, _, hc2, ha2⟩
      rw [hc] at hc2
      simp only [Prod.mk.injEq, Option.some.injEq] at hc2
      obtain ⟨_, rfl, rfl⟩ := hc2
      rw [ha] at ha2
      simp at ha2
    · intro _ _ _ _ hc2 ha2
      rw [hc] at hc2
      simp only [Prod.mk.injEq, Option.some.injEq] at hc2
      obtain ⟨_, rfl, rfl⟩ := hc2
      rw [ha] at ha2
      simp only [Prod.mk.injEq, and_true] at ha2
      subst ha2
      refine ⟨rfl, rfl, ?_⟩
      intro tag object_id decision hmem
      simp at hmem
  · refine ⟨_, h, ⟨fun _ => ⟨f1, i1, o, i2, w, hc, ha⟩, fun _ => rfl⟩, ?_⟩
    intro _ _ _ _ hc2 ha2
    rw [hc] at hc2
    simp only [Prod.mk.injEq, Option.some.injEq] at hc2
    obtain ⟨_, rfl, rfl⟩ := hc2
    rw [ha] at ha2
    simp at ha2

/-- An instance of C13 with a failing registration: the host creates the stop
obstacle and refuses to register it; the run returns `false` and its host
calls are the creation and the registration, with no longitudinal decision. -/
theorem BuildStopDecision_ok_iff_witness :
    ∃ built,
      BuildStopDecision unregisteringHost ⟨1, 2, 1 / 2⟩ (some (sampleFrame 6 0))
        (some (sampleInfo 10 [])) = some built ∧
      built.ok = false ∧
      ∀ tag object_id decision,
        HostCall.AddLongitudinalDecision tag object_id decision ∉ built.calls := by
  obtain ⟨built, hrun, _, hfail⟩ :=
    BuildStopDecision_ok_iff unregisteringHost ⟨1, 2, 1 / 2⟩ (sampleFrame 6 0)
      (sampleInfo 10 [])
  obtain ⟨hok, _, hnone⟩ := hfail _ _ _ _ rfl rfl
  exact ⟨built, hrun, hok, hnone⟩

/-- C14: on every successful `BuildStopDecision` the host created an obstacle
and registered it as a path obstacle `stop_wall`, and exactly one longitudinal
decision is added: the only `AddLongitudinalDecision` call of the run has the
label `Creeper`, the id `stop_wall->Id()` and the stop constraint built in the
same call, and the decision set left behind is the one that call returned. -/
theorem BuildStopDecision_one_decision (host : Host D) (config : DeciderCreepConfig D)
    (frame : Frame D) (info : ReferenceLineInfo D) (built : BuildResult D)
    (hrun : BuildStopDecision host config (some frame) (some info) = some built)
    (hok : built.ok = true) :
    ∃ frame1 info1 obstacle info2 stop_wall,
      host.CreateStopObstacle frame info (host.CREEP_VO_ID_PREFIX ++ "test")
          (info.AdcSlBoundary.end_s + FindCreepDistance frame info) =
        (frame1, info1, some obstacle) ∧
      host.AddObstacle info1 obstacle = (info2, some stop_wall) ∧
      built.calls.filter HostCall.isAddLongitudinalDecision =
        [HostCall.AddLongitudinalDecision "Creeper" stop_wall.Id
          (builtStop info2.reference_line
            (info.AdcSlBoundary.end_s + FindCreepDistance frame info)
            config.stop_distance)] ∧
      built.reference_line_info.path_decision =
        host.AddLongitudinalDecision info2.path_decision "Creeper" stop_wall.Id
          (builtStop info2.reference_line
            (info.AdcSlBoundary.end_s + FindCreepDistance frame info)
            config.stop_distance) := by
  rcases BuildStopDecision_cases host config frame info with
    ⟨_, _, _, h⟩ | ⟨_, _, _, _, _, _, h⟩ | ⟨f1, i1, o, i2, w, hc, ha, h⟩
  · rw [h] at hrun
    cases hrun
    cases hok
  · rw [h] at hrun
    cases hrun
    cases hok
  · rw [h] at hrun
    cases hrun
    exact ⟨f1, i1, o, i2, w, hc, ha, rfl, rfl⟩

/-- An instance of C14: on the sample input the run succeeds, its only
longitudinal decision is registered under `Creeper` for the id `CREEP_test` of
the stop wall, and it is the stop constraint with `distance_s = -1.0` at the
point `(9.5, 0)`; on this host the decision set then holds that one decision,
stored on the stop wall. -/
theorem BuildStopDecision_one_decision_witness :
    BuildStopDecision sampleHost ⟨1, 2, 1 / 2⟩ (some (sampleFrame 6 0))
        (some (sampleInfo 10 [])) = some (sampleBuilt 1) ∧
      (sampleBuilt 1).ok = true ∧
      (sampleBuilt 1).reference_line_info.path_decision =
        ⟨[⟨⟨"CREEP_test", true, true⟩, ⟨0⟩,
          [("Creeper", ObjectDecisionType.stop
            ⟨StopReasonCode.STOP_REASON_CREEPER, -1, 0, ⟨19 / 2, 0, 0⟩⟩)]⟩]⟩ ∧
      ∃ stop_wall : PathObstacle ℚ, stop_wall.Id = "CREEP_test" ∧
        (sampleBuilt 1).calls.filter HostCall.isAddLongitudinalDecision =
          [HostCall.AddLongitudinalDecision "Creeper" stop_wall.Id
            (ObjectDecisionType.stop
              ⟨StopReasonCode.STOP_REASON_CREEPER, -1, 0, ⟨19 / 2, 0, 0⟩⟩)] := by
  refine ⟨sampleBuilt_run 1, rfl, by norm_num [sampleBuilt], ?_⟩
  obtain ⟨frame1, info1, obstacle, info2, stop_wall, hc, ha, hfilter, _⟩ :=
    BuildStopDecision_one_decision sampleHost ⟨1, 2, 1 / 2⟩ (sampleFrame 6 0)
      (sampleInfo 10 []) (sampleBuilt 1) (sampleBuilt_run 1) rfl
  have hid : "CREEP_" ++ "test" = "CREEP_test" := by decide
  simp only [sampleHost, Prod.mk.injEq, Option.some.injEq, hid] at hc
  obtain ⟨_, rfl, rfl⟩ := hc
  simp only [sampleHost, Prod.mk.injEq, Option.some.injEq] at ha
  obtain ⟨rfl, rfl⟩ := ha
  refine ⟨⟨⟨"CREEP_test", true, true⟩, ⟨0⟩, []⟩, rfl, ?_⟩
  rw [hfilter]
  norm_num [builtStop, sampleInfo, sampleReferenceLine, FindCreepDistance, PathObstacle.Id]

/-- C15: in exact arithmetic, on every successful `BuildStopDecision` the
arc-length `stop_s` at which the stop point is resolved equals the arc-length
`creep_stop_s` of the virtual obstacle plus the constraint's `distance_s`, and
the gap `creep_stop_s - stop_s` is exactly `stop_distance`; the three values
are those of the host calls of the run, which makes all three calls. -/
theorem BuildStopDecision_geometry (host : Host ℚ) (config : DeciderCreepConfig ℚ)
    (frame : Frame ℚ) (info : ReferenceLineInfo ℚ) (built : BuildResult ℚ)
    (hrun : BuildStopDecision host config (some frame) (some info) = some built)
    (hok : built.ok = true) :
    (∃ obstacle_id creep_stop_s stop_s tag object_id stop,
        HostCall.CreateStopObstacle obstacle_id creep_stop_s ∈ built.calls ∧
        HostCall.GetReferencePoint stop_s ∈ built.calls ∧
        HostCall.AddLongitudinalDecision tag object_id (ObjectDecisionType.stop stop) ∈
          built.calls) ∧
      ∀ obstacle_id creep_stop_s stop_s tag object_id stop,
        HostCall.CreateStopObstacle obstacle_id creep_stop_s ∈ built.calls →
        HostCall.GetReferencePoint stop_s ∈ built.calls →
        HostCall.AddLongitudinalDecision tag object_id (ObjectDecisionType.stop stop) ∈
          built.calls →
        stop_s = creep_stop_s + stop.distance_s ∧
          creep_stop_s - stop_s = config.stop_distance := by
  obtain ⟨obstacle, stop_wall, hcalls⟩ :=
    BuildStopDecision_success host config frame info built hrun hok
  rw [hcalls]
  constructor
  · simp only [builtStop]
    exact ⟨_, _, _, "Creeper", stop_wall.Id, _, List.mem_cons_self _ _,
      List.mem_cons_of_mem _ (List.mem_cons_of_mem _ (List.mem_cons_self _ _)),
      List.mem_cons_of_mem _ (List.mem_cons_of_mem _ (List.mem_cons_of_mem _
        (List.mem_cons_of_mem _ (List.mem_cons_self _ _))))⟩
  · intro obstacle_id creep_stop_s stop_s tag object_id stop h1 h2 h3
    simp only [List.mem_cons, List.mem_singleton, List.not_mem_nil, or_false,
      reduceCtorEq, false_or, or_self, HostCall.CreateStopObstacle.injEq,
      HostCall.GetReferencePoint.injEq, HostCall.AddLongitudinalDecision.injEq,
      builtStop, ObjectDecisionType.stop.injEq] at h1 h2 h3
    obtain ⟨_, rfl⟩ := h1
    obtain ⟨_, _, rfl⟩ := h3
    subst h2
    constructor <;> ring

/-- The scenario behind C15: with `stop_distance = 1.0` and front edge `10.0`
the obstacle is at `10.5`, the constraint has `distance_s = -1.0`, and the stop
point is resolved at `9.5 = 10.5 + (-1.0)`. -/
theorem BuildStopDecision_geometry_witness :
    HostCall.CreateStopObstacle "CREEP_test" (21 / 2) ∈ (sampleBuilt 1).calls ∧
      HostCall.GetReferencePoint (19 / 2) ∈ (sampleBuilt 1).calls ∧
      (19 / 2 : ℚ) = 21 / 2 + -1 ∧ (21 / 2 : ℚ) - 19 / 2 = 1 := by
  have hcreate : HostCall.CreateStopObstacle "CREEP_test" (21 / 2) ∈ (sampleBuilt 1).calls := by
    simp [sampleBuilt]
  have hpoint : HostCall.GetReferencePoint (19 / 2) ∈ (sampleBuilt 1).calls := by
    norm_num [sampleBuilt]
  have hadd : HostCall.AddLongitudinalDecision "Creeper" "CREEP_test"
      (ObjectDecisionType.stop
        ⟨StopReasonCode.STOP_REASON_CREEPER, -1, 0, ⟨21 / 2 - 1, 0, 0⟩⟩) ∈
      (sampleBuilt 1).calls := by
    simp [sampleBuilt]
  exact ⟨hcreate, hpoint,
    (BuildStopDecision_geometry sampleHost ⟨1, 2, 1 / 2⟩ (sampleFrame 6 0)
      (sampleInfo 10 []) (sampleBuilt 1) (sampleBuilt_run 1) rfl).2
      _ _ _ _ _ _ hcreate hpoint hadd⟩

/-! ## Order, progress and the obstacle set in CheckCreepDone -/

/-- C16: `CheckCreepDone` does not depend on the order in which the obstacles
are iterated: on two obstacle lists that are permutations of each other, with
the same configuration, frame, front edge and `stop_sign_end_s`, it returns the
same result. -/
theorem CheckCreepDone_perm (config : DeciderCreepConfig D) (frame : Frame D)
    (info : ReferenceLineInfo D) (stop_sign_end_s : D) (items1 items2 : List (PathObstacle D))
    (hperm : items1.Perm items2) :
    CheckCreepDone config frame (info.withItems items1) stop_sign_end_s =
      CheckCreepDone config frame (info.withItems items2) stop_sign_end_s := by
  have hscan : CheckCreepDone.scan config.min_boundary_t items1 =
      CheckCreepDone.scan config.min_boundary_t items2 := by
    rw [Bool.eq_iff_iff, scan_eq_true_iff, scan_eq_true_iff]
    constructor
    · intro h p hp
      exact h p (hperm.mem_iff.mpr hp)
    · intro h p hp
      exact h p (hperm.mem_iff.mp hp)
  simp only [CheckCreepDone_eq, ReferenceLineInfo.withItems, FindCreepDistance, hscan]

/-- An instance of C16: a blocking obstacle (boundary time `0.3`) before or
after a clear one (boundary time `3`) gives `false` in both orders. -/
theorem CheckCreepDone_perm_witness :
    CheckCreepDone ⟨1, 2, 1 / 2⟩ (sampleFrame 15 0)
        ((sampleInfo 19 []).withItems
          [sampleItem "car" false true (3 / 10), sampleItem "cone" false true 3]) 20 =
        CheckCreepDone ⟨1, 2, 1 / 2⟩ (sampleFrame 15 0)
          ((sampleInfo 19 []).withItems
            [sampleItem "cone" false true 3, sampleItem "car" false true (3 / 10)]) 20 ∧
      CheckCreepDone ⟨1, 2, 1 / 2⟩ (sampleFrame 15 0)
        ((sampleInfo 19 []).withItems
          [sampleItem "cone" false true 3, sampleItem "car" false true (3 / 10)]) 20 =
        false :=
  ⟨CheckCreepDone_perm ⟨1, 2, 1 / 2⟩ (sampleFrame 15 0) (sampleInfo 19 []) 20
      [sampleItem "car" false true (3 / 10), sampleItem "cone" false true 3]
      [sampleItem "cone" false true 3, sampleItem "car" false true (3 / 10)]
      (List.Perm.swap _ _ _),
    by norm_num [CheckCreepDone, CheckCreepDone.scan, ReferenceLineInfo.withItems,
      sampleInfo, sampleItem, FindCreepDistance]⟩

/-- C17: `CheckCreepDone` is monotone in the vehicle's progress.  With the
configuration, `stop_sign_end_s` and the obstacle list fixed, if it returns
`true` at front edge `s1` it returns `true` at every front edge `s2 ≥ s1`;
the distance has no lower bound.  Stated in exact arithmetic;
`CheckCreepDone_mono_front_edge_binary64` is the same property with the
distance rounded as the code rounds it. -/
theorem CheckCreepDone_mono_front_edge (config : DeciderCreepConfig ℚ) (frame : Frame ℚ)
    (info : ReferenceLineInfo ℚ) (stop_sign_end_s s1 s2 : ℚ) (hle : s1 ≤ s2)
    (hdone : CheckCreepDone config frame (info.withFrontEdge s1) stop_sign_end_s = true) :
    CheckCreepDone config frame (info.withFrontEdge s2) stop_sign_end_s = true := by
  simp only [CheckCreepDone_eq, ReferenceLineInfo.withFrontEdge, FindCreepDistance,
    half_rat] at hdone ⊢
  by_cases hnear : stop_sign_end_s + 1 / 2 - s1 < config.max_valid_stop_distance
  · rw [if_pos hnear] at hdone
    rw [if_pos (by linarith), hdone]
  · rw [if_neg hnear] at hdone
    cases hdone

/-- An instance of C17: with `stop_sign_end_s = 20.0` the result is `true` at
front edge `19.0` (distance `1.5`), and so it is at front edge `25.0`, where
the distance is `-4.5`. -/
theorem CheckCreepDone_mono_front_edge_witness :
    CheckCreepDone ⟨1, 2, 1 / 2⟩ (sampleFrame 15 0)
        ((sampleInfo 19 [sampleItem "cone" false true 3]).withFrontEdge 19) 20 = true ∧
      (20 : ℚ) + FindCreepDistance (sampleFrame 15 0)
          ((sampleInfo 19 [sampleItem "cone" false true 3]).withFrontEdge 25) -
        ((sampleInfo 19 [sampleItem "cone" false true 3]).withFrontEdge 25).AdcSlBoundary.end_s =
        -(9 / 2) ∧
      CheckCreepDone ⟨1, 2, 1 / 2⟩ (sampleFrame 15 0)
        ((sampleInfo 19 [sampleItem "cone" false true 3]).withFrontEdge 25) 20 = true := by
  have hdone : CheckCreepDone ⟨1, 2, 1 / 2⟩ (sampleFrame 15 0)
      ((sampleInfo 19 [sampleItem "cone" false true 3]).withFrontEdge 19) 20 = true := by
    norm_num [CheckCreepDone, CheckCreepDone.scan, ReferenceLineInfo.withFrontEdge,
      sampleInfo, sampleItem, FindCreepDistance]
  exact ⟨hdone,
    by norm_num [ReferenceLineInfo.withFrontEdge, sampleInfo, FindCreepDistance],
    CheckCreepDone_mono_front_edge ⟨1, 2, 1 / 2⟩ (sampleFrame 15 0)
      (sampleInfo 19 [sampleItem "cone" false true 3]) 20 19 25 (by norm_num) hdone⟩

/-- The monotonicity of C17 in binary64: with the configuration,
`stop_sign_end_s` and the obstacle list fixed, if `CheckCreepDone` returns
`true` at front edge `s1` it returns `true` at every front edge `s2` with
`s1 <= s2`, the rounding of the distance being monotone. -/
theorem CheckCreepDone_mono_front_edge_binary64 (config : DeciderCreepConfig Double)
    (frame : Frame Double) (info : ReferenceLineInfo Double)
    (stop_sign_end_s s1 s2 : Double) (hle : s1 ≤ s2)
    (hdone : CheckCreepDone config frame (info.withFrontEdge s1) stop_sign_end_s = true) :
    CheckCreepDone config frame (info.withFrontEdge s2) stop_sign_end_s = true := by
  simp only [CheckCreepDone_eq, ReferenceLineInfo.withFrontEdge, FindCreepDistance] at hdone ⊢
  by_cases hnear :
      stop_sign_end_s + DoubleArith.half - s1 < config.max_valid_stop_distance
  · rw [if_pos hnear] at hdone
    have hnear2 : stop_sign_end_s + DoubleArith.half - s2 < config.max_valid_stop_distance :=
      Double.sub_lt_of_le _ _ _ _ hle hnear
    rw [if_pos hnear2, hdone]
  · rw [if_neg hnear] at hdone
    cases hdone

/-- C18: `CheckCreepDone` is conservative with respect to the obstacle set.
With the configuration, frame, front edge and `stop_sign_end_s` fixed, if it
returns `true` on a list it returns `true` on every sub-list of it, so adding
obstacles to a list never changes the result from `false` to `true`. -/
theorem CheckCreepDone_sublist (config : DeciderCreepConfig D) (frame : Frame D)
    (info : ReferenceLineInfo D) (stop_sign_end_s : D) (fewer more : List (PathObstacle D))
    (hsub : fewer.Sublist more)
    (hdone : CheckCreepDone config frame (info.withItems more) stop_sign_end_s = true) :
    CheckCreepDone config frame (info.withItems fewer) stop_sign_end_s = true := by
  simp only [CheckCreepDone_eq, ReferenceLineInfo.withItems, FindCreepDistance] at hdone ⊢
  by_cases hnear :
      stop_sign_end_s + DoubleArith.half - info.AdcSlBoundary.end_s <
        config.max_valid_stop_distance
  · rw [if_pos hnear] at hdone
    rw [if_pos hnear]
    rw [scan_eq_true_iff] at hdone ⊢
    intro p hp
    exact hdone p (hsub.subset hp)
  · rw [if_neg hnear] at hdone
    cases hdone

/-- An instance of C18: the result is `true` on a list of a clear static
obstacle, a moving one and a virtual one, and so it is on the sub-list that
keeps the first and the last. -/
theorem CheckCreepDone_sublist_witness :
    CheckCreepDone ⟨1, 2, 1 / 2⟩ (sampleFrame 15 0)
        ((sampleInfo 19 []).withItems
          [sampleItem "cone" false true 3, sampleItem "bike" false false (1 / 10),
            sampleItem "wall" true true 0]) 20 = true ∧
      CheckCreepDone ⟨1, 2, 1 / 2⟩ (sampleFrame 15 0)
        ((sampleInfo 19 []).withItems
          [sampleItem "cone" false true 3, sampleItem "wall" true true 0]) 20 = true := by
  have hdone : CheckCreepDone ⟨1, 2, 1 / 2⟩ (sampleFrame 15 0)
      ((sampleInfo 19 []).withItems
        [sampleItem "cone" false true 3, sampleItem "bike" false false (1 / 10),
          sampleItem "wall" true true 0]) 20 = true := by
    norm_num [CheckCreepDone, CheckCreepDone.scan, ReferenceLineInfo.withItems,
      sampleInfo, sampleItem, FindCreepDistance]
  exact ⟨hdone,
    CheckCreepDone_sublist ⟨1, 2, 1 / 2⟩ (sampleFrame 15 0) (sampleInfo 19 []) 20
      [sampleItem "cone" false true 3, sampleItem "wall" true true 0]
      [sampleItem "cone" false true 3, sampleItem "bike" false false (1 / 10),
        sampleItem "wall" true true 0]
      (List.Sublist.cons₂ _ (List.Sublist.cons _ (List.Sublist.refl _))) hdone⟩

/-! ## BuildStopDecision and SetProceedWithCautionSpeedParam in binary64 -/

/-- The bound of C6 in binary64: for every front edge that is not NaN, every
arc-length at which `BuildStopDecision` asks for the stop obstacle is greater
than or equal to the front edge, the rounded sum `end_s + 0.5` being at least
`end_s`. -/
theorem BuildStopDecision_creep_stop_s_ahead_binary64 (host : Host Double)
    (config : DeciderCreepConfig Double) (frame : Frame Double)
    (info : ReferenceLineInfo Double) (hfront : info.AdcSlBoundary.end_s ≠ Double.nan) :
    ∃ built, BuildStopDecision host config (some frame) (some info) = some built ∧
      ∀ obstacle_id creep_stop_s,
        HostCall.CreateStopObstacle obstacle_id creep_stop_s ∈ built.calls →
        info.AdcSlBoundary.end_s ≤ creep_stop_s := by
  rcases BuildStopDecision_cases host config frame info with
    ⟨_, _, _, h⟩ | ⟨_, _, _, _, _, _, h⟩ | ⟨_, _, _, _, _, _, _, h⟩ <;>
  · refine ⟨_, h, ?_⟩
    intro obstacle_id creep_stop_s hmem
    simp only [List.mem_cons, List.mem_singleton, List.not_mem_nil, or_false,
      reduceCtorEq, HostCall.CreateStopObstacle.injEq] at hmem
    obtain ⟨_, rfl⟩ := hmem
    exact Double.le_add_half _ hfront

/-- C7, refuted as stated: in binary64, with `stop_distance = 1.0 ≥ 0` and front
edge `10.0` the run succeeds and resolves the stop point at `stop_s = 9.5`,
which is behind the front edge. -/
theorem BuildStopDecision_stop_s_behind :
    DoubleArith.zero ≤ (sampleConfig64 1 2 (1 / 2)).stop_distance ∧
      ∃ built,
        BuildStopDecision sampleHost64 (sampleConfig64 1 2 (1 / 2)) (some (sampleFrame64 6 0))
          (some (sampleInfo64 10 [])) = some built ∧
        built.ok = true ∧
        HostCall.GetReferencePoint (Double.round (19 / 2)) ∈ built.calls ∧
        Double.round (19 / 2) < (sampleInfo64 10 []).AdcSlBoundary.end_s ∧
        ¬ (sampleInfo64 10 []).AdcSlBoundary.end_s ≤ Double.round (19 / 2) :=
  ⟨by decide!, _, rfl, rfl, by decide!, by decide!, by decide!⟩

/-- C7, amended: in binary64, whenever `BuildStopDecision` runs, every arc-length
`stop_s` at which it resolves the stop point is
`(adc_front_edge_s + FindCreepDistance) - stop_distance`, a successful run does
resolve it there, and `stop_s` is never below `adc_front_edge_s - stop_distance`:
`stop_s < adc_front_edge_s - stop_distance` is false for all values, and for a
finite front edge and a finite `stop_distance`,
`adc_front_edge_s - stop_distance ≤ stop_s`; with `stop_distance = 0.0` this is
`adc_front_edge_s ≤ stop_s`. -/
theorem BuildStopDecision_stop_s_lower_bound (host : Host Double)
    (config : DeciderCreepConfig Double) (frame : Frame Double)
    (info : ReferenceLineInfo Double) (built : BuildResult Double)
    (hrun : BuildStopDecision host config (some frame) (some info) = some built) :
    (built.ok = true →
        HostCall.GetReferencePoint
          (info.AdcSlBoundary.end_s + FindCreepDistance frame info - config.stop_distance) ∈
          built.calls) ∧
      ∀ stop_s, HostCall.GetReferencePoint stop_s ∈ built.calls →
        stop_s =
            info.AdcSlBoundary.end_s + FindCreepDistance frame info - config.stop_distance ∧
          ¬ stop_s < info.AdcSlBoundary.end_s - config.stop_distance ∧
          (info.AdcSlBoundary.end_s.isFinite = true → config.stop_distance.isFinite = true →
            info.AdcSlBoundary.end_s - config.stop_distance ≤ stop_s) ∧
          (info.AdcSlBoundary.end_s.isFinite = true →
            config.stop_distance = DoubleArith.zero →
            info.AdcSlBoundary.end_s ≤ stop_s) := by
  have hbound : ∀ stop_s : Double,
      stop_s = info.AdcSlBoundary.end_s + FindCreepDistance frame info - config.stop_distance →
      stop_s =
          info.AdcSlBoundary.end_s + FindCreepDistance frame info - config.stop_distance ∧
        ¬ stop_s < info.AdcSlBoundary.end_s - config.stop_distance ∧
        (info.AdcSlBoundary.end_s.isFinite = true → config.stop_distance.isFinite = true →
          info.AdcSlBoundary.end_s - config.stop_distance ≤ stop_s) ∧
        (info.AdcSlBoundary.end_s.isFinite = true →
          config.stop_distance = DoubleArith.zero →
          info.AdcSlBoundary.end_s ≤ stop_s) := by
    intro stop_s hs
    subst hs
    refine ⟨rfl, ?_, ?_, ?_⟩
    · rw [Double.lt_def, FindCreepDistance, Double.add_half_sub_not_lt]
      simp
    · intro he hd
      exact Double.sub_le_add_half_sub _ _ he hd
    · intro he hd
      have hzero : (DoubleArith.zero : Double).isFinite = true := by
        obtain ⟨_, ez⟩ := Double.zero_eq_fin
        rw [ez]
        rfl
      have h := Double.sub_le_add_half_sub info.AdcSlBoundary.end_s DoubleArith.zero he hzero
      rw [Double.sub_zero_of_isFinite _ he] at h
      rw [hd]
      exact h
  rcases BuildStopDecision_cases host config frame info with
    ⟨_, _, _, h⟩ | ⟨_, _, _, _, _, _, h⟩ | ⟨_, _, _, _, _, _, _, h⟩
  · rw [h] at hrun
    cases hrun
    exact ⟨fun hok => (by cases hok), fun stop_s hmem => (by simp at hmem)⟩
  · rw [h] at hrun
    cases hrun
    exact ⟨fun hok => (by cases hok), fun stop_s hmem => (by simp at hmem)⟩
  · rw [h] at hrun
    cases hrun
    refine ⟨fun _ => by simp, ?_⟩
    intro stop_s hmem
    simp only [List.mem_cons, List.mem_singleton, List.not_mem_nil, or_false,
      reduceCtorEq, false_or, or_self, HostCall.GetReferencePoint.injEq] at hmem
    exact hbound stop_s hmem

/-- Two instances of the amended C7 in binary64.  With `stop_distance = 0.0` and
front edge `0.1` the stop point is resolved at `0.6` (the double
`0.59999999999999998`), not behind the front edge.  With `stop_distance = 0.5`
and front edge `0.1` it is resolved at `0.09999999999999998`, behind the front
edge `0.1` and not below `0.1 - 0.5`. -/
theorem BuildStopDecision_stop_s_lower_bound_witness :
    (∃ built,
        BuildStopDecision sampleHost64 (sampleConfig64 0 2 (1 / 2)) (some (sampleFrame64 0 0))
          (some (sampleInfo64 (1 / 10) [])) = some built ∧
        HostCall.GetReferencePoint (Double.round (5404319552844595 / 9007199254740992)) ∈
          built.calls ∧
        (sampleInfo64 (1 / 10) []).AdcSlBoundary.end_s ≤
          Double.round (5404319552844595 / 9007199254740992)) ∧
      ∃ built,
        BuildStopDecision sampleHost64 (sampleConfig64 (1 / 2) 2 (1 / 2))
          (some (sampleFrame64 0 0)) (some (sampleInfo64 (1 / 10) [])) = some built ∧
        HostCall.GetReferencePoint (Double.round (900719925474099 / 9007199254740992)) ∈
          built.calls ∧
        Double.round (900719925474099 / 9007199254740992) <
          (sampleInfo64 (1 / 10) []).AdcSlBoundary.end_s ∧
        (sampleInfo64 (1 / 10) []).AdcSlBoundary.end_s -
            (sampleConfig64 (1 / 2) 2 (1 / 2)).stop_distance ≤
          Double.round (900719925474099 / 9007199254740992) :=
  ⟨⟨_, rfl, by decide!,
      ((BuildStopDecision_stop_s_lower_bound sampleHost64 (sampleConfig64 0 2 (1 / 2))
        (sampleFrame64 0 0) (sampleInfo64 (1 / 10) []) _ rfl).2 _ (by decide!)).2.2.2
        (by decide!) (by decide!)⟩,
    ⟨_, rfl, by decide!, by decide!,
      ((BuildStopDecision_stop_s_lower_bound sampleHost64 (sampleConfig64 (1 / 2) 2 (1 / 2))
        (sampleFrame64 0 0) (sampleInfo64 (1 / 10) []) _ rfl).2 _ (by decide!)).2.2.1
        (by decide!) (by decide!)⟩⟩

/-- C9: in binary64, on every successful `BuildStopDecision`, with
`creep_stop_s = adc_front_edge_s + FindCreepDistance` and
`stop_s = creep_stop_s - stop_distance`, each the rounded result the code
computes, the host calls are, in order: the request for the virtual obstacle at
`creep_stop_s`, its registration, the two resolutions of the reference line's
point at `stop_s`, and the registration of a stop constraint with reason
`STOP_REASON_CREEPER`, `distance_s = -stop_distance`, the heading of the
reference line's point at `stop_s`, and the stop point `(x, y, 0.0)` with `x`,
`y` those of the same point. -/
theorem BuildStopDecision_constraint (host : Host Double)
    (config : DeciderCreepConfig Double) (frame : Frame Double)
    (info : ReferenceLineInfo Double) (built : BuildResult Double)
    (hrun : BuildStopDecision host config (some frame) (some info) = some built)
    (hok : built.ok = true) :
    ∃ (obstacle_id : String) (obstacle : Obstacle) (wall_id : String),
      built.calls =
        [HostCall.CreateStopObstacle obstacle_id
          (info.AdcSlBoundary.end_s + FindCreepDistance frame info),
          HostCall.AddObstacle obstacle,
          HostCall.GetReferencePoint
            (info.AdcSlBoundary.end_s + FindCreepDistance frame info -
              config.stop_distance),
          HostCall.GetReferencePoint
            (info.AdcSlBoundary.end_s + FindCreepDistance frame info -
              config.stop_distance),
          HostCall.AddLongitudinalDecision "Creeper" wall_id
            (ObjectDecisionType.stop
              { reason_code := StopReasonCode.STOP_REASON_CREEPER
                distance_s := -config.stop_distance
                stop_heading :=
                  (built.reference_line_info.reference_line.GetReferencePoint
                    (info.AdcSlBoundary.end_s + FindCreepDistance frame info -
                      config.stop_distance)).heading
                stop_point :=
                  ⟨(built.reference_line_info.reference_line.GetReferencePoint
                      (info.AdcSlBoundary.end_s + FindCreepDistance frame info -
                        config.stop_distance)).x,
                    (built.reference_line_info.reference_line.GetReferencePoint
                      (info.AdcSlBoundary.end_s + FindCreepDistance frame info -
                        config.stop_distance)).y, DoubleArith.zero⟩ })] := by
  obtain ⟨obstacle, stop_wall, hcalls⟩ :=
    BuildStopDecision_success host config frame info built hrun hok
  exact ⟨_, obstacle, stop_wall.Id, hcalls⟩

/-- The scenarios of C9 in binary64.  `stop_distance = 1.0` and
`adc_front_edge_s = 10.0` give `creep_stop_s = 10.5`, `stop_s = 9.5` and
`distance_s = -1.0`.  `stop_distance = 0.3` and `adc_front_edge_s = 10.1` give
`creep_stop_s = 10.6` and the rounded `stop_s = 10.299999999999999`, one unit in
the last place below the double `10.3`.  On the straight sample line the point
at `stop_s` is `(stop_s, 0.0)` with heading `0.0`. -/
theorem BuildStopDecision_constraint_witness :
    (∃ built,
        BuildStopDecision sampleHost64 (sampleConfig64 1 2 (1 / 2)) (some (sampleFrame64 6 0))
          (some (sampleInfo64 10 [])) = some built ∧
        built.ok = true ∧
        ∃ (obstacle_id : String) (obstacle : Obstacle) (wall_id : String),
          built.calls =
            [HostCall.CreateStopObstacle obstacle_id (Double.round (21 / 2)),
              HostCall.AddObstacle obstacle,
              HostCall.GetReferencePoint (Double.round (19 / 2)),
              HostCall.GetReferencePoint (Double.round (19 / 2)),
              HostCall.AddLongitudinalDecision "Creeper" wall_id
                (ObjectDecisionType.stop
                  ⟨StopReasonCode.STOP_REASON_CREEPER, Double.round (-1), Double.round 0,
                    ⟨Double.round (19 / 2), Double.round 0, Double.round 0⟩⟩)]) ∧
      ∃ built,
        BuildStopDecision sampleHost64 (sampleConfig64 (3 / 10) 2 (1 / 2))
          (some (sampleFrame64 6 0)) (some (sampleInfo64 (101 / 10) [])) = some built ∧
        built.ok = true ∧
        Double.round (5798384520239513 / 562949953421312) < Double.round (103 / 10) ∧
        ∃ (obstacle_id : String) (obstacle : Obstacle) (wall_id : String),
          built.calls =
            [HostCall.CreateStopObstacle obstacle_id (Double.round (106 / 10)),
              HostCall.AddObstacle obstacle,
              HostCall.GetReferencePoint
                (Double.round (5798384520239513 / 562949953421312)),
              HostCall.GetReferencePoint
                (Double.round (5798384520239513 / 562949953421312)),
              HostCall.AddLongitudinalDecision "Creeper" wall_id
                (ObjectDecisionType.stop
                  ⟨StopReasonCode.STOP_REASON_CREEPER, Double.round (-3 / 10),
                    Double.round 0,
                    ⟨Double.round (5798384520239513 / 562949953421312), Double.round 0,
                      Double.round 0⟩⟩)] := by
  constructor
  · refine ⟨_, rfl, rfl, ?_⟩
    obtain ⟨obstacle_id, obstacle, wall_id, hcalls⟩ :=
      BuildStopDecision_constraint sampleHost64 (sampleConfig64 1 2 (1 / 2))
        (sampleFrame64 6 0) (sampleInfo64 10 []) _ rfl rfl
    refine ⟨obstacle_id, obstacle, wall_id, hcalls.trans ?_⟩
    have h1 : (sampleInfo64 10 []).AdcSlBoundary.end_s +
        FindCreepDistance (sampleFrame64 6 0) (sampleInfo64 10 []) =
        Double.round (21 / 2) := by decide!
    have h2 : Double.round (21 / 2) - (sampleConfig64 1 2 (1 / 2)).stop_distance =
        Double.round (19 / 2) := by decide!
    have h3 : -(sampleConfig64 1 2 (1 / 2)).stop_distance = Double.round (-1) := by decide!
    rw [h1, h2, h3]
    rfl
  · refine ⟨_, rfl, rfl, by decide!, ?_⟩
    obtain ⟨obstacle_id, obstacle, wall_id, hcalls⟩ :=
      BuildStopDecision_constraint sampleHost64 (sampleConfig64 (3 / 10) 2 (1 / 2))
        (sampleFrame64 6 0) (sampleInfo64 (101 / 10) []) _ rfl rfl
    refine ⟨obstacle_id, obstacle, wall_id, hcalls.trans ?_⟩
    have h1 : (sampleInfo64 (101 / 10) []).AdcSlBoundary.end_s +
        FindCreepDistance (sampleFrame64 6 0) (sampleInfo64 (101 / 10) []) =
        Double.round (106 / 10) := by decide!
    have h2 : Double.round (106 / 10) - (sampleConfig64 (3 / 10) 2 (1 / 2)).stop_distance =
        Double.round (5798384520239513 / 562949953421312) := by decide!
    have h3 : -(sampleConfig64 (3 / 10) 2 (1 / 2)).stop_distance =
        Double.round (-3 / 10) := by decide!
    rw [h1, h2, h3]
    rfl

/-! ## Theorems on SetProceedWithCautionSpeedParam -/

/-- C10: in binary64, for every frame, reference line and previous scenario
state, after `SetProceedWithCautionSpeedParam` the proceed-with-caution speed
parameter holds the type `FIXED_DISTANCE` and the distance
`s + FindCreepDistance`, the rounded sum the code stores, where `s` is the
arc-length that `XYToSL` gives for the vehicle's position
`(vehicle_state.x, vehicle_state.y)` on the reference line. -/
theorem SetProceedWithCautionSpeedParam_writes (frame : Frame Double)
    (info : ReferenceLineInfo Double) (scenario_info : ScenarioInfo Double) :
    (SetProceedWithCautionSpeedParam frame info scenario_info).proceed_with_caution_speed =
      ⟨ProceedWithCautionSpeedType.FIXED_DISTANCE,
        (info.reference_line.XYToSL ⟨frame.vehicle_state.x, frame.vehicle_state.y⟩
          SLPoint.init).2.s + FindCreepDistance frame info⟩ := rfl

/-- Instances of C10 in binary64.  The vehicle at `(7, 1)` projects to `s = 7` on
the straight sample line, so the parameter becomes `FIXED_DISTANCE` with
distance `7.5`, both from a state of another type and from a state already
written.  The vehicle at `(0.1, 0)` projects to `s = 0.1` and the stored
distance is the double `0.59999999999999998`, the rounded sum of the doubles
`0.1` and `0.5`. -/
theorem SetProceedWithCautionSpeedParam_writes_witness :
    (SetProceedWithCautionSpeedParam (sampleFrame64 7 1) (sampleInfo64 10 [])
        ⟨⟨ProceedWithCautionSpeedType.OTHER, Double.round 5⟩⟩).proceed_with_caution_speed =
        ⟨ProceedWithCautionSpeedType.FIXED_DISTANCE, Double.round (15 / 2)⟩ ∧
      (SetProceedWithCautionSpeedParam (sampleFrame64 7 1) (sampleInfo64 10 [])
        ⟨⟨ProceedWithCautionSpeedType.FIXED_DISTANCE,
          Double.round (15 / 2)⟩⟩).proceed_with_caution_speed =
        ⟨ProceedWithCautionSpeedType.FIXED_DISTANCE, Double.round (15 / 2)⟩ ∧
      (SetProceedWithCautionSpeedParam (sampleFrame64 (1 / 10) 0) (sampleInfo64 10 [])
        ⟨⟨ProceedWithCautionSpeedType.OTHER, Double.round 5⟩⟩).proceed_with_caution_speed =
        ⟨ProceedWithCautionSpeedType.FIXED_DISTANCE,
          Double.round (5404319552844595 / 9007199254740992)⟩ :=
  ⟨(SetProceedWithCautionSpeedParam_writes (sampleFrame64 7 1) (sampleInfo64 10 [])
      ⟨⟨ProceedWithCautionSpeedType.OTHER, Double.round 5⟩⟩).trans (by decide!),
    (SetProceedWithCautionSpeedParam_writes (sampleFrame64 7 1) (sampleInfo64 10 [])
      ⟨⟨ProceedWithCautionSpeedType.FIXED_DISTANCE, Double.round (15 / 2)⟩⟩).trans
      (by decide!),
    (SetProceedWithCautionSpeedParam_writes (sampleFrame64 (1 / 10) 0) (sampleInfo64 10 [])
      ⟨⟨ProceedWithCautionSpeedType.OTHER, Double.round 5⟩⟩).trans (by decide!)⟩

end planning
end apollo
